import Mathlib

/-!
# scraper-backend: picture lifecycle and spatial recompute

A shallow embedding of `src/adapter/controller/picture.go`.

Conventions of the embedding:

* Go `int` is the 64-bit signed integer: a coordinate is an `Int` between
  `-2^63` and `2^63 - 1` (`isInt`), and `+` and `-` on coordinates wrap around
  (`addInt`, `subInt`).
* `uuid.UUID` and `time.Time` are opaque tokens, represented by `Nat`.
* `time.Now()` and `uuid.New()` are read from the environment: the value each
  call returns is an explicit argument (`now`, `newID`) of the function that
  makes the call.
* A Go `map[uuid.UUID]V` is an association list read by "first binding wins";
  `GoMap.store` and `GoMap.delete` are `m[k] = v` and `delete(m, k)`.
  Maps are allocated (the code assigns into `picture.Sizes` unconditionally).
* Stores are values; an operation on the controller returns the controller
  with the updated stores next to its `error` result.
* A port call can fail for a reason outside its contract; whether it does is
  decided by the environment and is an explicit argument (`TransferFaults`,
  `CropFaults`, `CopyFaults`, `BlockFaults`).
* The blob store records the calls it receives, so that the paths an operation
  reads from and writes to can be stated.
* Go's `filepath.Join`, `image.Rectangle` and `SubImage` follow the documented
  behaviour of the standard library; the codec functions are arguments.
-/

namespace ScraperBackend

/-! ## Go maps keyed by UUID -/

abbrev UUID := Nat

abbrev Time := Nat

abbrev GoMap (V : Type) := List (UUID × V)

namespace GoMap

/-- The value bound to `k`, if any: `v, ok := m[k]`. -/
def lookup {V : Type} (k : UUID) : GoMap V → Option V
  | [] => none
  | (k', v) :: rest => if k' = k then some v else lookup k rest

/-- Removal of a key: `delete(m, k)`. -/
def delete {V : Type} (k : UUID) (m : GoMap V) : GoMap V :=
  m.filter (fun p => decide (p.1 ≠ k))

/-- Assignment to a key: `m[k] = v`. -/
def store {V : Type} (k : UUID) (v : V) (m : GoMap V) : GoMap V :=
  (k, v) :: delete k m

/-- The keys of the map, each listed once. -/
def keys {V : Type} (m : GoMap V) : List UUID :=
  (m.map Prod.fst).dedup

/-- One iteration of a `for k, v := range m` loop at key `k`, on the current map
`cur`: a key that has been deleted before it is reached is skipped, and the value
handed to the body is the one bound at the time of the visit. -/
def visit {V : Type} (body : GoMap V → UUID → V → GoMap V) (cur : GoMap V) (k : UUID) :
    GoMap V :=
  match lookup k cur with
  | none => cur
  | some v => body cur k v

/-- A `for k, v := range m` loop whose body only deletes or assigns keys of `m`:
every key of the map at loop entry is visited once. -/
def range {V : Type} (m : GoMap V) (body : GoMap V → UUID → V → GoMap V) : GoMap V :=
  (keys m).foldl (visit body) m

end GoMap

/-! ## Go `int` -/

/-- Whether an integer is a value of Go's `int` on a 64-bit platform. -/
abbrev isInt (x : Int) : Prop :=
  -9223372036854775808 ≤ x ∧ x ≤ 9223372036854775807

/-- The `int` that an arithmetic operation yields when its mathematical result
is `x`: the two's complement wrap-around on 64 bits. -/
def wrapInt (x : Int) : Int :=
  (x + 9223372036854775808) % 18446744073709551616 - 9223372036854775808

/-- The operator `+` on `int`. -/
def addInt (a b : Int) : Int := wrapInt (a + b)

/-- The operator `-` on `int`. -/
def subInt (a b : Int) : Int := wrapInt (a - b)

/-! ## Data model (`controllerModel`) -/

/-- Modelled from the spec: the package `adapter/controller/model` is not part of
the sources at hand; `Box` is the spec's rectangle `{left, top, width, height}`
with the field names `Tlx`, `Tly`, `Width`, `Height` that `picture.go` reads.
The fields are Go `int` (they are passed to `image.Rect`): each is a value in
the range `isInt`. -/
structure Box where
  Tlx : Int
  Tly : Int
  Width : Int
  Height : Int
  deriving DecidableEq, Repr

/-- Whether the four fields of a box are values of Go's `int`, as the fields of
every box the program holds are. -/
abbrev Box.inRange (b : Box) : Prop :=
  isInt b.Tlx ∧ isInt b.Tly ∧ isInt b.Width ∧ isInt b.Height

/-- Modelled from the spec: the body of a tag's `boxInformation`, the size the
box is expressed in and the box itself. -/
structure BoxInformation where
  ImageSizeID : UUID
  Box : Box
  deriving DecidableEq, Repr

/-- Modelled from the spec: the optional `boxInformation` of a tag, with the
`Valid` flag and `Body` that `picture.go` reads. -/
structure NullableBoxInformation where
  Valid : Bool
  Body : BoxInformation
  deriving DecidableEq, Repr

/-- Modelled from the spec: a tag. `picture.go` reads and writes only
`BoxInformation`; `Name` and `CreationDate` stand for the remaining payload. -/
structure PictureTag where
  Name : String
  CreationDate : Time
  BoxInformation : NullableBoxInformation
  deriving DecidableEq, Repr

/-- Modelled from the spec: a size record, with the two fields `picture.go` sets. -/
structure PictureSize where
  CreationDate : Time
  Box : Box
  deriving DecidableEq, Repr

/-- Modelled from the spec: a picture record (spec section 3), with the field
names `picture.go` uses. -/
structure Picture where
  Origin : String
  Name : String
  OriginID : String
  Extension : String
  CreationDate : Time
  Sizes : GoMap PictureSize
  Tags : GoMap PictureTag
  deriving DecidableEq, Repr

/-! ## `updatePictureTagBoxes` -/

/-- Lines 241-256 of `picture.go`: the new `(tlx, width)` of a tag box that was
not dropped by the check of line 237. -/
def recomputeX (box : Box) (tlx width : Int) : Int × Int :=
  if tlx < box.Tlx then
    -- box left outside on the image left
    let width := if addInt tlx width < box.Tlx then 0 else addInt (subInt width box.Tlx) tlx
    (box.Tlx, width)
  else
    -- box left inside image
    let width :=
      if addInt tlx width > addInt box.Tlx box.Width then subInt (addInt box.Tlx box.Width) tlx
      else width
    (subInt tlx box.Tlx, width)

/-- Lines 268-283 of `picture.go`: the new `(tly, height)` of a tag box that was
not dropped by the check of line 264. -/
def recomputeY (box : Box) (tly height : Int) : Int × Int :=
  if tly < box.Tly then
    -- box top outside on the image top
    let height := if addInt tly height < box.Tly then 0 else addInt (subInt height box.Tly) tly
    (box.Tly, height)
  else
    -- box top inside image
    let height :=
      if addInt tly height > addInt box.Tly box.Height then subInt (addInt box.Tly box.Height) tly
      else height
    (subInt tly box.Tly, height)

/-- Lines 228-296 of `picture.go`, the part of the loop body before
`picture.Tags[tagID] = tag`: `none` when the body deletes the tag and continues,
`some tag` with the tag to be stored otherwise. -/
def recomputeTag (box : Box) (imageSizeID : UUID) (tag : PictureTag) : Option PictureTag :=
  if tag.BoxInformation.Valid then
    let boxInformation := tag.BoxInformation.Body
    let tlx := boxInformation.Box.Tlx
    let tly := boxInformation.Box.Tly
    let width := boxInformation.Box.Width
    let height := boxInformation.Box.Height
    -- box outside on the image right
    if tlx > addInt box.Tlx box.Width then none
    else
      let x := recomputeX box tlx width
      -- box width too small
      if x.2 < 50 then none
      -- box outside at the image bottom
      else if tly > addInt box.Tly box.Height then none
      else
        let y := recomputeY box tly height
        -- box height too small
        if y.2 < 50 then none
        else
          some { tag with
            BoxInformation :=
              { Valid := tag.BoxInformation.Valid
                Body :=
                  { ImageSizeID := imageSizeID
                    Box := { Tlx := x.1, Tly := y.1, Width := x.2, Height := y.2 } } } }
  else some tag

/-- Lines 227-298 of `picture.go`: the loop over `picture.Tags`. -/
def updateTags (box : Box) (imageSizeID : UUID) (tags : GoMap PictureTag) : GoMap PictureTag :=
  GoMap.range tags (fun cur tagID tag =>
    match recomputeTag box imageSizeID tag with
    | none => GoMap.delete tagID cur
    | some tag => GoMap.store tagID tag cur)

/-- The function `updatePictureTagBoxes` of `picture.go`. `now` is the value of
`time.Now()` and `newID` the value of `uuid.New()` at lines 222 and 225. The Go
function always returns a nil error. -/
def updatePictureTagBoxes (box : Box) (picture : Picture) (imageSizeID : UUID)
    (now : Time) (newID : UUID) : Except String Picture :=
  -- new size creation
  let size : PictureSize := { CreationDate := now, Box := box }
  let sizes := GoMap.store newID size picture.Sizes
  let tags := updateTags box imageSizeID picture.Tags
  Except.ok { picture with Sizes := sizes, Tags := tags }

/-! ## Ports and the lifecycle controller -/

/-- The errors a controller operation returns. `tableNotAvailable` is the error
built at line 40 of `picture.go`; `notFound` and `alreadyExists` are the failures
of the Picture Store Port contract (spec section 7); `unavailable` is any other
failure of a port call. `jpegEncodeFailed`, `pngEncodeFailed` and
`noMatchingExtension` are the errors built at lines 198, 203 and 206,
`cannotCrop` the one built at line 345. `nilImage` stands for the run-time panic
of `img.Bounds()` at line 334 when `image.Decode` has failed at line 310, where
its error is discarded. -/
inductive Error where
  | tableNotAvailable (state : String)
  | notFound
  | alreadyExists
  | unavailable
  | jpegEncodeFailed
  | pngEncodeFailed
  | noMatchingExtension
  | cannotCrop
  | nilImage
  deriving DecidableEq, Repr

/-- Modelled from the spec: the Picture Store Port of spec section 4.1 (the
interface `DriverDynamodbPicture` and its driver are not part of the sources at
hand). A store holds the records of one review stage; the key of a record is
`(origin, name)`. -/
abbrev PictureStore := List Picture

namespace PictureStore

/-- Modelled from the spec: whether a record has the key `(origin, name)`. -/
def hasKey (origin name : String) (p : Picture) : Bool :=
  decide (p.Origin = origin) && decide (p.Name = name)

/-- Modelled from the spec: the record stored under `(origin, name)`, if any. -/
def get (s : PictureStore) (origin name : String) : Option Picture :=
  s.find? (hasKey origin name)

/-- Modelled from the spec: `read(origin, name) -> picture | NotFound`. With
`fails` the call fails for a reason outside the contract. -/
def ReadPicture (s : PictureStore) (fails : Bool) (origin name : String) :
    Except Error Picture :=
  if fails then Except.error Error.unavailable
  else
    match s.get origin name with
    | none => Except.error Error.notFound
    | some p => Except.ok p

/-- Modelled from the spec: `create(picture)`, which "fails with `AlreadyExists`
if the key is occupied". With `fails` the call fails for a reason outside the
contract and the store is unchanged. -/
def CreatePicture (s : PictureStore) (fails : Bool) (picture : Picture) :
    Except Error PictureStore :=
  if fails then Except.error Error.unavailable
  else
    match s.get picture.Origin picture.Name with
    | some _ => Except.error Error.alreadyExists
    | none => Except.ok (picture :: s)

/-- Modelled from the spec: `delete(origin, name)`. With `fails` the call fails
for a reason outside the contract and the store is unchanged. -/
def DeletePicture (s : PictureStore) (fails : Bool) (origin name : String) :
    Except Error PictureStore :=
  if fails then Except.error Error.unavailable
  else Except.ok (s.filter (fun p => !hasKey origin name p))

end PictureStore

/-- The content of a blob. -/
abbrev Bytes := List Nat

/-- A call received by the blob store driver, with its arguments. -/
inductive S3Call where
  | ItemRead (bucket path : String)
  | ItemCreate (buffer : Bytes) (bucket path : String)
  | ItemDelete (bucket path : String)
  | ItemCopy (bucket sourcePath destinationPath : String)
  deriving DecidableEq, Repr

/-- Modelled from the spec: the Blob Store Port of spec section 4.2 (the
interface `DriverS3` and its driver are not part of the sources at hand). The
blobs are keyed by `(bucket, path)`; `calls` lists the calls the driver has
received, oldest first. -/
structure DriverS3 where
  objects : List ((String × String) × Bytes) := []
  calls : List S3Call := []
  deriving DecidableEq, Repr

namespace DriverS3

/-- Modelled from the spec: the blob stored under `(bucket, path)`, if any. -/
def get (s : DriverS3) (bucket path : String) : Option Bytes :=
  (s.objects.find? (fun o => decide (o.1 = (bucket, path)))).map Prod.snd

/-- Modelled from the spec: the blobs without the one under `(bucket, path)`. -/
def remove (s : DriverS3) (bucket path : String) : List ((String × String) × Bytes) :=
  s.objects.filter (fun o => decide (o.1 ≠ (bucket, path)))

/-- Modelled from the spec: `get(bucket, path) -> bytes | NotFound`. With `fails`
the call fails for a reason outside the contract. -/
def ItemRead (s : DriverS3) (fails : Bool) (bucket path : String) :
    Except Error Bytes × DriverS3 :=
  let s := { s with calls := s.calls ++ [S3Call.ItemRead bucket path] }
  if fails then (Except.error Error.unavailable, s)
  else
    match s.get bucket path with
    | none => (Except.error Error.notFound, s)
    | some buffer => (Except.ok buffer, s)

/-- Modelled from the spec: `put(bucket, path, bytes)`; a blob already under the
path is replaced. With `fails` the call fails and the blobs are unchanged. -/
def ItemCreate (s : DriverS3) (fails : Bool) (buffer : Bytes) (bucket path : String) :
    Except Error Unit × DriverS3 :=
  let s := { s with calls := s.calls ++ [S3Call.ItemCreate buffer bucket path] }
  if fails then (Except.error Error.unavailable, s)
  else (Except.ok (), { s with objects := ((bucket, path), buffer) :: s.remove bucket path })

/-- Modelled from the spec: `delete(bucket, path)`, which "succeeds even if
absent". With `fails` the call fails and the blobs are unchanged. -/
def ItemDelete (s : DriverS3) (fails : Bool) (bucket path : String) :
    Except Error Unit × DriverS3 :=
  let s := { s with calls := s.calls ++ [S3Call.ItemDelete bucket path] }
  if fails then (Except.error Error.unavailable, s)
  else (Except.ok (), { s with objects := s.remove bucket path })

/-- Modelled from the spec: `copy(bucket, sourcePath, destPath)`; the blob under
the source path is put under the destination path, and the call fails with
`NotFound` when there is no blob under the source path. With `fails` the call
fails and the blobs are unchanged. -/
def ItemCopy (s : DriverS3) (fails : Bool) (bucket sourcePath destinationPath : String) :
    Except Error Unit × DriverS3 :=
  let s := { s with calls := s.calls ++ [S3Call.ItemCopy bucket sourcePath destinationPath] }
  if fails then (Except.error Error.unavailable, s)
  else
    match s.get bucket sourcePath with
    | none => (Except.error Error.notFound, s)
    | some buffer =>
      (Except.ok (),
        { s with objects := ((bucket, destinationPath), buffer) :: s.remove bucket destinationPath })

end DriverS3

/-! ## Library functions: formatting, paths, images -/

/-- The string `fmt.Sprintf("%s/%s.%s", origin, name, extension)` of lines 105,
129, 130 and 169. -/
def sprintfPath (origin name extension : String) : String :=
  origin ++ "/" ++ name ++ "." ++ extension

/-- The string `fmt.Sprintf("%s_%s", originID, stamp)` of line 125. -/
def sprintfName (originID stamp : String) : String :=
  originID ++ "_" ++ stamp

namespace filepath

/-- The elements of a path between its separators. -/
def split : List Char → List (List Char)
  | [] => [[]]
  | c :: cs =>
    match split cs with
    | [] => [[c]]
    | seg :: segs => if c = '/' then [] :: seg :: segs else (c :: seg) :: segs

/-- One element of a path in `Clean`, on the elements kept so far (the last one
first): an empty element and `.` are dropped, `..` removes the element before
it, is dropped at the root, and is kept otherwise. -/
def cleanStep (rooted : Bool) (kept : List (List Char)) (seg : List Char) :
    List (List Char) :=
  if seg = [] ∨ seg = ['.'] then kept
  else if seg = ['.', '.'] then
    match kept with
    | top :: rest => if top = ['.', '.'] then seg :: kept else rest
    | [] => if rooted then [] else [seg]
  else seg :: kept

/-- Go's `filepath.Clean` on a slash-separated path, by its documented rules. -/
def Clean (path : String) : String :=
  let rooted := decide (path.data.head? = some '/')
  let kept := (split path.data).foldl (cleanStep rooted) []
  let body := String.intercalate "/" (kept.reverse.map String.mk)
  if rooted then "/" ++ body else if body = "" then "." else body

/-- Go's `filepath.Join` of two elements: the elements from the first non-empty
one on are joined by the separator and the result is cleaned; the result is
empty when both elements are. -/
def Join (a b : String) : String :=
  if a ≠ "" then Clean (a ++ "/" ++ b)
  else if b ≠ "" then Clean b
  else ""

end filepath

namespace image

/-- Go's `image.Point`. -/
structure Point where
  X : Int
  Y : Int
  deriving DecidableEq, Repr

/-- Go's `image.Rectangle`: the points with `Min.X ≤ x < Max.X` and
`Min.Y ≤ y < Max.Y`. -/
structure Rectangle where
  Min : Point
  Max : Point
  deriving DecidableEq, Repr

/-- Go's `image.ZR`, the zero rectangle. -/
def ZR : Rectangle := { Min := ⟨0, 0⟩, Max := ⟨0, 0⟩ }

/-- Go's `image.Rect`: the rectangle with the given corners, put in order. -/
def Rect (x0 y0 x1 y1 : Int) : Rectangle :=
  let (x0, x1) := if x0 > x1 then (x1, x0) else (x0, x1)
  let (y0, y1) := if y0 > y1 then (y1, y0) else (y0, y1)
  { Min := ⟨x0, y0⟩, Max := ⟨x1, y1⟩ }

namespace Rectangle

/-- Go's `Rectangle.Empty`. -/
def Empty (r : Rectangle) : Bool :=
  decide (r.Min.X ≥ r.Max.X) || decide (r.Min.Y ≥ r.Max.Y)

/-- Go's `Rectangle.Intersect`: the largest rectangle contained in both, and
the zero rectangle when the two do not overlap. -/
def Intersect (r s : Rectangle) : Rectangle :=
  let r : Rectangle := if r.Min.X < s.Min.X then { r with Min := ⟨s.Min.X, r.Min.Y⟩ } else r
  let r : Rectangle := if r.Min.Y < s.Min.Y then { r with Min := ⟨r.Min.X, s.Min.Y⟩ } else r
  let r : Rectangle := if r.Max.X > s.Max.X then { r with Max := ⟨s.Max.X, r.Max.Y⟩ } else r
  let r : Rectangle := if r.Max.Y > s.Max.Y then { r with Max := ⟨r.Max.X, s.Max.Y⟩ } else r
  if r.Empty then ZR else r

/-- Go's `Point.In`: whether the point `(x, y)` is in the rectangle. -/
def has (r : Rectangle) (x y : Int) : Bool :=
  decide (r.Min.X ≤ x) && decide (x < r.Max.X) && decide (r.Min.Y ≤ y) && decide (y < r.Max.Y)

end Rectangle

/-- A colour value. -/
abbrev Color := Nat

/-- A value of Go's interface `image.Image`: its bounds, its pixels, and whether
its dynamic type has the method `SubImage` (as the image types of the standard
library, which the decoders return, have). -/
structure Image where
  Bounds : Rectangle
  At : Int → Int → Color
  hasSubImage : Bool

namespace Image

/-- The method `SubImage` of the standard library's image types: the part of
the image visible through `r`, and an empty image when there is none. -/
def SubImage (p : Image) (r : Rectangle) : Image :=
  let r := r.Intersect p.Bounds
  if r.Empty then { Bounds := ZR, At := fun _ _ => 0, hasSubImage := true }
  else { Bounds := r, At := fun x y => if r.has x y then p.At x y else 0, hasSubImage := true }

/-- Go's `image.NewRGBA`: a blank image with the given bounds. -/
def NewRGBA (r : Rectangle) : Image :=
  { Bounds := r, At := fun _ _ => 0, hasSubImage := true }

/-- The method `Set` of `*image.RGBA`: a point outside the bounds is ignored. -/
def Set (p : Image) (x y : Int) (c : Color) : Image :=
  if p.Bounds.has x y then
    { p with At := fun x' y' => if x' = x ∧ y' = y then c else p.At x' y' }
  else p

end Image

/-- The integers `lo, lo + 1, ..., hi - 1` a counting loop runs through. -/
def span (lo hi : Int) : List Int :=
  (List.range (hi - lo).toNat).map (fun i => lo + (i : Int))

end image

/-- The codec functions `picture.go` calls: `image.Decode` (`none` when it
returns an error), `jpeg.Encode` and `png.Encode` (`none` when they return an
error). They are arguments of the functions that call them. -/
structure Codec where
  Decode : Bytes → Option image.Image
  jpegEncode : image.Image → Option Bytes
  pngEncode : image.Image → Option Bytes

/-- The function `fileToBuffer` of `picture.go`, lines 190-209. -/
def fileToBuffer (codec : Codec) (picture : Picture) (file : image.Image) :
    Except Error Bytes :=
  if picture.Extension = "jpeg" ∨ picture.Extension = "jpg" then
    match codec.jpegEncode file with
    | none => Except.error Error.jpegEncodeFailed
    | some buffer => Except.ok buffer
  else if picture.Extension = "png" then
    match codec.pngEncode file with
    | none => Except.error Error.pngEncodeFailed
    | some buffer => Except.ok buffer
  else Except.error Error.noMatchingExtension

/-- The function `updateFileDimension` of `picture.go`, lines 321-347. -/
def updateFileDimension (img : image.Image) (cropRect : image.Rectangle) :
    Except Error image.Image :=
  if img.hasSubImage then
    -- Call SubImage
    Except.ok (img.SubImage cropRect)
  else
    let cropRect := cropRect.Intersect img.Bounds
    if !cropRect.Empty then
      -- copy the image portion to RGBA image
      let rgbaImg := image.Image.NewRGBA cropRect
      let rgbaImg := (image.span cropRect.Min.Y cropRect.Max.Y).foldl
        (fun rgbaImg y =>
          (image.span cropRect.Min.X cropRect.Max.X).foldl
            (fun rgbaImg x => rgbaImg.Set x y (img.At x y)) rgbaImg)
        rgbaImg
      Except.ok rgbaImg
    else Except.error Error.cannotCrop

/-- The store instance a driver handle of `ControllerPicture` refers to. -/
inductive Driver where
  | DynamodbProcess
  | DynamodbValidation
  | DynamodbProduction
  | DynamodbBlocked
  deriving DecidableEq, Repr

/-- The struct `ControllerPicture` of `picture.go`, lines 20-29, with the state of
the store behind each of its four picture drivers and behind its blob driver. -/
structure ControllerPicture where
  S3 : DriverS3 := {}
  BucketName : String := "bucket"
  DynamodbProcess : PictureStore := []
  DynamodbValidation : PictureStore := []
  DynamodbProduction : PictureStore := []
  DynamodbBlocked : PictureStore := []
  deriving DecidableEq, Repr

/-- Which sub-steps of one `TransferPicture` call fail for a reason outside the
store contract; decided by the environment, like the value of `time.Now()`. -/
structure TransferFaults where
  read : Bool := false
  create : Bool := false
  delete : Bool := false
  deriving DecidableEq, Repr

/-- Which port calls of one `UpdatePictureSize` call fail for a reason outside
the port contracts. -/
structure CropFaults where
  read : Bool := false
  blobRead : Bool := false
  blobCreate : Bool := false
  create : Bool := false
  deriving DecidableEq, Repr

/-- Which port calls of one `CopyPicture` call fail for a reason outside the
port contracts. -/
structure CopyFaults where
  read : Bool := false
  copy : Bool := false
  create : Bool := false
  deriving DecidableEq, Repr

/-- Which port calls of one `CreatePictureBlocked` call fail for a reason
outside the port contracts. -/
structure BlockFaults where
  blobDelete : Bool := false
  create : Bool := false
  delete : Bool := false
  deriving DecidableEq, Repr

namespace ControllerPicture

/-- The current state of the store behind a driver handle. -/
def store (c : ControllerPicture) : Driver → PictureStore
  | Driver.DynamodbProcess => c.DynamodbProcess
  | Driver.DynamodbValidation => c.DynamodbValidation
  | Driver.DynamodbProduction => c.DynamodbProduction
  | Driver.DynamodbBlocked => c.DynamodbBlocked

/-- The controller after the store behind a driver handle has changed to `s`. -/
def setStore (c : ControllerPicture) (d : Driver) (s : PictureStore) : ControllerPicture :=
  match d with
  | Driver.DynamodbProcess => { c with DynamodbProcess := s }
  | Driver.DynamodbValidation => { c with DynamodbValidation := s }
  | Driver.DynamodbProduction => { c with DynamodbProduction := s }
  | Driver.DynamodbBlocked => { c with DynamodbBlocked := s }

/-- The method `driverDynamodbMap` of `picture.go`, lines 31-42. -/
def driverDynamodbMap (state : String) : Except Error Driver :=
  if state = "production" then Except.ok Driver.DynamodbProduction
  else if state = "validation" then Except.ok Driver.DynamodbValidation
  else if state = "process" then Except.ok Driver.DynamodbProcess
  else Except.error (Error.tableNotAvailable state)

/-- The method `TransferPicture` of `picture.go`, lines 141-166: the returned
`error` (`Except.ok ()` for nil) and the controller afterwards. -/
def TransferPicture (c : ControllerPicture) (env : TransferFaults) (picture : Picture)
    (fromState toState : String) : Except Error Unit × ControllerPicture :=
  match driverDynamodbMap fromState with
  | Except.error err => (Except.error err, c)
  | Except.ok fromDynamodb =>
    match (c.store fromDynamodb).ReadPicture env.read picture.Origin picture.Name with
    | Except.error err => (Except.error err, c)
    | Except.ok oldPicture =>
      match driverDynamodbMap toState with
      | Except.error err => (Except.error err, c)
      | Except.ok toDynamodb =>
        match (c.store toDynamodb).CreatePicture env.create oldPicture with
        | Except.error err => (Except.error err, c)
        | Except.ok created =>
          let c := c.setStore toDynamodb created
          match (c.store fromDynamodb).DeletePicture env.delete picture.Origin picture.Name with
          | Except.error err => (Except.error err, c)
          | Except.ok deleted => (Except.ok (), c.setStore fromDynamodb deleted)

/-- The method `cropPicture` of `picture.go`, lines 211-217. -/
def cropPicture (c : ControllerPicture) (fails : Bool) (box : Box) (picture : Picture)
    (imageSizeID : UUID) (now : Time) (newID : UUID) : Except Error Picture :=
  match c.DynamodbProcess.ReadPicture fails picture.Origin picture.Name with
  | Except.error err => Except.error err
  | Except.ok oldPicture =>
    match updatePictureTagBoxes box oldPicture imageSizeID now newID with
    | Except.error _ => Except.error Error.unavailable
    | Except.ok newPicture => Except.ok newPicture

/-- The method `cropFile` of `picture.go`, lines 302-319: its result and the
controller afterwards. -/
def cropFile (c : ControllerPicture) (codec : Codec) (fails : Bool) (box : Box)
    (picture : Picture) : Except Error image.Image × ControllerPicture :=
  let path := filepath.Join picture.Origin picture.Name
  match c.S3.ItemRead fails c.BucketName path with
  | (Except.error err, s3) => (Except.error err, { c with S3 := s3 })
  | (Except.ok buffer, s3) =>
    let c := { c with S3 := s3 }
    -- convert []byte to image
    match codec.Decode buffer with
    | none => (Except.error Error.nilImage, c)
    | some img =>
      -- crop the image with the bounding box rectangle
      let cropRect :=
        image.Rect box.Tlx box.Tly (addInt box.Tlx box.Width) (addInt box.Tly box.Height)
      match updateFileDimension img cropRect with
      | Except.error err => (Except.error err, c)
      | Except.ok img => (Except.ok img, c)

/-- The method `UpdatePictureSize` of `picture.go`, lines 94-118: the returned
`error` and the controller afterwards. `now` and `newID` are the values of
`time.Now()` and `uuid.New()` inside `updatePictureTagBoxes`. -/
def UpdatePictureSize (c : ControllerPicture) (codec : Codec) (env : CropFaults) (box : Box)
    (picture : Picture) (imageSizeID : UUID) (now : Time) (newID : UUID) :
    Except Error Unit × ControllerPicture :=
  match c.cropPicture env.read box picture imageSizeID now newID with
  | Except.error err => (Except.error err, c)
  | Except.ok newPicture =>
    match c.cropFile codec env.blobRead box picture with
    | (Except.error err, c) => (Except.error err, c)
    | (Except.ok newFile, c) =>
      let path := sprintfPath newPicture.Origin newPicture.Name newPicture.Extension
      match fileToBuffer codec newPicture newFile with
      | Except.error err => (Except.error err, c)
      | Except.ok buffer =>
        match c.S3.ItemCreate env.blobCreate buffer c.BucketName path with
        | (Except.error err, s3) => (Except.error err, { c with S3 := s3 })
        | (Except.ok _, s3) =>
          let c := { c with S3 := s3 }
          match c.DynamodbProcess.CreatePicture env.create newPicture with
          | Except.error err => (Except.error err, c)
          | Except.ok created => (Except.ok (), { c with DynamodbProcess := created })

/-- The method `CopyPicture` of `picture.go`, lines 120-139: the returned `error`
and the controller afterwards. `stamp` is the value of
`time.Now().Format(time.RFC3339)` at line 125 and `now` the value of `time.Now()`
at line 127. -/
def CopyPicture (c : ControllerPicture) (env : CopyFaults) (picture : Picture)
    (stamp : String) (now : Time) : Except Error Unit × ControllerPicture :=
  match c.DynamodbProcess.ReadPicture env.read picture.Origin picture.Name with
  | Except.error err => (Except.error err, c)
  | Except.ok newPicture =>
    let name := sprintfName newPicture.OriginID stamp
    let newPicture := { newPicture with Name := name }
    let newPicture := { newPicture with CreationDate := now }
    let sourcePath := sprintfPath newPicture.Origin newPicture.Name newPicture.Extension
    let destinationPath := sprintfPath newPicture.Origin name newPicture.Extension
    match c.S3.ItemCopy env.copy c.BucketName sourcePath destinationPath with
    | (Except.error err, s3) => (Except.error err, { c with S3 := s3 })
    | (Except.ok _, s3) =>
      let c := { c with S3 := s3 }
      match c.DynamodbProcess.CreatePicture env.create newPicture with
      | Except.error err => (Except.error err, c)
      | Except.ok created => (Except.ok (), { c with DynamodbProcess := created })

/-- The method `CreatePictureBlocked` of `picture.go`, lines 168-184: the
returned `error` and the controller afterwards. `now` is the value of
`time.Now()` at line 174. -/
def CreatePictureBlocked (c : ControllerPicture) (env : BlockFaults) (picture : Picture)
    (now : Time) : Except Error Unit × ControllerPicture :=
  let sourcePath := sprintfPath picture.Origin picture.Name picture.Extension
  match c.S3.ItemDelete env.blobDelete c.BucketName sourcePath with
  | (Except.error err, s3) => (Except.error err, { c with S3 := s3 })
  | (Except.ok _, s3) =>
    let c := { c with S3 := s3 }
    let picture := { picture with CreationDate := now }
    match c.DynamodbBlocked.CreatePicture env.create picture with
    | Except.error err => (Except.error err, c)
    | Except.ok created =>
      let c := { c with DynamodbBlocked := created }
      match c.DynamodbProcess.DeletePicture env.delete picture.Origin picture.Name with
      | Except.error err => (Except.error err, c)
      | Except.ok deleted => (Except.ok (), { c with DynamodbProcess := deleted })

end ControllerPicture

/-! ## Sample data -/

namespace Sample

/-- A tag anchored to the box `b`, expressed in the size `7`. -/
def anchored (b : Box) : PictureTag :=
  { Name := "tag"
    CreationDate := 0
    BoxInformation := { Valid := true, Body := { ImageSizeID := 7, Box := b } } }

/-- The largest `int`, `2^63 - 1`. -/
def maxInt : Int := 9223372036854775807

/-- An image-level tag, without box information. -/
def unanchored : PictureTag :=
  { Name := "tag"
    CreationDate := 0
    BoxInformation := { Valid := false, Body := { ImageSizeID := 0, Box := ⟨0, 0, 0, 0⟩ } } }

/-- A picture with one size, under the identifier `7`, and the given tags. -/
def picture (tags : GoMap PictureTag) : Picture :=
  { Origin := "flickr"
    Name := "p1"
    OriginID := "id1"
    Extension := "jpg"
    CreationDate := 0
    Sizes := [(7, { CreationDate := 0, Box := ⟨0, 0, 500, 500⟩ })]
    Tags := tags }

/-- A controller whose process store holds `picture []` and whose blob store
holds the given blobs. -/
def controller (objects : List ((String × String) × Bytes)) : ControllerPicture :=
  { DynamodbProcess := [picture []], S3 := { objects := objects } }

/-- A controller whose validation store holds `picture []`, with the blob of the
picture under `flickr/p1.jpg`. -/
def validated : ControllerPicture :=
  { DynamodbValidation := [picture []],
    S3 := { objects := [(("bucket", "flickr/p1.jpg"), [1, 2, 3])] } }

/-- An image of the kind the decoders return, 10 by 10 pixels. -/
def raster : image.Image :=
  { Bounds := image.Rect 0 0 10 10, At := fun _ _ => 1, hasSubImage := true }

/-- An image whose type has no `SubImage` method, 10 by 10 pixels. -/
def plain : image.Image :=
  { Bounds := image.Rect 0 0 10 10, At := fun _ _ => 1, hasSubImage := false }

/-- A codec that decodes every buffer to `raster` and encodes every image to
the one-byte buffer `[9]`. -/
def codec : Codec :=
  { Decode := fun _ => some raster
    jpegEncode := fun _ => some [9]
    pngEncode := fun _ => some [9] }

end Sample

/-! ## Lemmas on Go maps -/

namespace GoMap

theorem lookup_delete {V : Type} (k k' : UUID) (m : GoMap V) :
    lookup k (delete k' m) = if k = k' then none else lookup k m := by
  induction m with
  | nil => simp [delete, lookup]
  | cons p rest ih =>
    obtain ⟨a, v⟩ := p
    unfold delete at ih ⊢
    by_cases ha : a = k'
    · subst ha
      by_cases hk : k = a
      · subst hk
        simpa [List.filter] using ih
      · have hk' : ¬ a = k := fun h => hk h.symm
        simpa [List.filter, lookup, hk, hk'] using ih
    · by_cases hk : k = k'
      · subst hk
        simpa [List.filter, lookup, ha] using ih
      · by_cases hak : a = k
        · simp [List.filter, lookup, ha, hk, hak]
        · simpa [List.filter, lookup, ha, hk, hak] using ih

theorem lookup_store {V : Type} (k k' : UUID) (v : V) (m : GoMap V) :
    lookup k (store k' v m) = if k = k' then some v else lookup k m := by
  by_cases hk : k = k'
  · subst hk
    simp [store, lookup]
  · have hk' : ¬ k' = k := fun h => hk h.symm
    simp [store, lookup, hk, hk', lookup_delete]

theorem lookup_eq_none_iff {V : Type} (k : UUID) (m : GoMap V) :
    lookup k m = none ↔ k ∉ m.map Prod.fst := by
  induction m with
  | nil => simp [lookup]
  | cons p rest ih =>
    obtain ⟨a, v⟩ := p
    by_cases hak : a = k
    · simp [lookup, hak]
    · have hka : ¬ k = a := fun h => hak h.symm
      simp [lookup, hak, hka, ih]

theorem not_mem_keys {V : Type} (k : UUID) (m : GoMap V) :
    k ∉ keys m ↔ lookup k m = none := by
  rw [lookup_eq_none_iff]
  simp [keys]

/-- The loop of `range` over a duplicate-free list of keys, when the body deletes
or reassigns the visited key only: every visited key is rebound to `f` of its
value, or deleted when `f` gives `none`; the other keys are untouched. -/
theorem lookup_foldl_visit {V : Type} (f : V → Option V)
    (body : GoMap V → UUID → V → GoMap V)
    (hnone : ∀ cur k v, f v = none → body cur k v = delete k cur)
    (hsome : ∀ cur k v w, f v = some w → body cur k v = store k w cur)
    (ks : List UUID) (hks : ks.Nodup) (cur : GoMap V) (k : UUID) :
    lookup k (ks.foldl (visit body) cur) =
      if k ∈ ks then (lookup k cur).bind f else lookup k cur := by
  induction ks generalizing cur with
  | nil => simp
  | cons a rest ih =>
    rw [List.nodup_cons] at hks
    rw [List.foldl_cons, ih hks.2]
    by_cases hka : k = a
    · subst hka
      simp only [hks.1, if_false, List.mem_cons, true_or, if_true]
      unfold visit
      cases hl : lookup k cur with
      | none => simp [hl]
      | some v =>
        cases hf : f v with
        | none => simp [hnone cur k v hf, hf, lookup_delete]
        | some w => simp [hsome cur k v w hf, hf, lookup_store]
    · have hstep : lookup k (visit body cur a) = lookup k cur := by
        unfold visit
        cases hl : lookup a cur with
        | none => simp
        | some v =>
          cases hf : f v with
          | none => simp [hnone cur a v hf, lookup_delete, hka]
          | some w => simp [hsome cur a v w hf, lookup_store, hka]
      simp only [hstep, List.mem_cons, hka, false_or]

/-- The map after a `range` loop whose body deletes or reassigns the visited key
only. -/
theorem lookup_range {V : Type} (f : V → Option V)
    (body : GoMap V → UUID → V → GoMap V)
    (hnone : ∀ cur k v, f v = none → body cur k v = delete k cur)
    (hsome : ∀ cur k v w, f v = some w → body cur k v = store k w cur)
    (m : GoMap V) (k : UUID) :
    lookup k (range m body) = (lookup k m).bind f := by
  unfold range
  rw [lookup_foldl_visit f body hnone hsome (keys m) (List.nodup_dedup _) m k]
  by_cases hk : k ∈ keys m
  · simp [hk]
  · have := (not_mem_keys k m).1 hk
    simp [hk, this]

end GoMap

/-- The tags after the loop of `updatePictureTagBoxes`: each tag of the input is
rebound to its recomputed value, or absent when the loop body deleted it. -/
theorem lookup_updateTags (box : Box) (imageSizeID : UUID) (tags : GoMap PictureTag)
    (k : UUID) :
    GoMap.lookup k (updateTags box imageSizeID tags) =
      (GoMap.lookup k tags).bind (recomputeTag box imageSizeID) := by
  unfold updateTags
  apply GoMap.lookup_range
  · intro cur k v h
    simp [h]
  · intro cur k v w h
    simp [h]

/-- The picture `updatePictureTagBoxes` returns. -/
theorem updatePictureTagBoxes_eq (box : Box) (picture : Picture) (imageSizeID : UUID)
    (now : Time) (newID : UUID) :
    updatePictureTagBoxes box picture imageSizeID now newID =
      Except.ok
        { picture with
          Sizes := GoMap.store newID { CreationDate := now, Box := box } picture.Sizes
          Tags := updateTags box imageSizeID picture.Tags } :=
  rfl

/-- An unanchored tag is stored back as it is. -/
theorem recomputeTag_unanchored (box : Box) (imageSizeID : UUID) (tag : PictureTag)
    (h : tag.BoxInformation.Valid = false) :
    recomputeTag box imageSizeID tag = some tag := by
  simp [recomputeTag, h]

/-- When the loop body stores an anchored tag: none of the four drop checks
fired, and the stored tag carries `imageSizeID` and the recomputed box. -/
theorem recomputeTag_anchored_eq_some (box : Box) (imageSizeID : UUID)
    (tag out : PictureTag) (h : tag.BoxInformation.Valid = true) :
    recomputeTag box imageSizeID tag = some out ↔
      (tag.BoxInformation.Body.Box.Tlx ≤ addInt box.Tlx box.Width ∧
        50 ≤ (recomputeX box tag.BoxInformation.Body.Box.Tlx
          tag.BoxInformation.Body.Box.Width).2 ∧
        tag.BoxInformation.Body.Box.Tly ≤ addInt box.Tly box.Height ∧
        50 ≤ (recomputeY box tag.BoxInformation.Body.Box.Tly
          tag.BoxInformation.Body.Box.Height).2) ∧
      out =
        { tag with
          BoxInformation :=
            { Valid := true
              Body :=
                { ImageSizeID := imageSizeID
                  Box :=
                    { Tlx := (recomputeX box tag.BoxInformation.Body.Box.Tlx
                        tag.BoxInformation.Body.Box.Width).1
                      Tly := (recomputeY box tag.BoxInformation.Body.Box.Tly
                        tag.BoxInformation.Body.Box.Height).1
                      Width := (recomputeX box tag.BoxInformation.Body.Box.Tlx
                        tag.BoxInformation.Body.Box.Width).2
                      Height := (recomputeY box tag.BoxInformation.Body.Box.Tly
                        tag.BoxInformation.Body.Box.Height).2 } } } } := by
  unfold recomputeTag
  simp only [h, if_true]
  split_ifs with h1 h2 h3 h4
  · constructor
    · intro hc; cases hc
    · rintro ⟨⟨a, -, -, -⟩, -⟩; omega
  · constructor
    · intro hc; cases hc
    · rintro ⟨⟨-, a, -, -⟩, -⟩; omega
  · constructor
    · intro hc; cases hc
    · rintro ⟨⟨-, -, a, -⟩, -⟩; omega
  · constructor
    · intro hc; cases hc
    · rintro ⟨⟨-, -, -, a⟩, -⟩; omega
  · constructor
    · intro hc
      injection hc with hc
      exact ⟨⟨by omega, by omega, by omega, by omega⟩, hc.symm⟩
    · rintro ⟨-, rfl⟩
      rfl

/-- A tag of the returned picture is the recomputed value of the input tag under
the same identifier. -/
theorem lookup_updateTags_eq_some (box : Box) (imageSizeID : UUID) (tags : GoMap PictureTag)
    (k : UUID) (out : PictureTag) :
    GoMap.lookup k (updateTags box imageSizeID tags) = some out ↔
      ∃ tag, GoMap.lookup k tags = some tag ∧ recomputeTag box imageSizeID tag = some out := by
  rw [lookup_updateTags]
  cases GoMap.lookup k tags with
  | none => simp
  | some tag => simp

/-- An anchored tag of the returned picture comes from an anchored tag of the
input. -/
theorem anchored_of_recomputeTag (box : Box) (imageSizeID : UUID) (tag out : PictureTag)
    (h : recomputeTag box imageSizeID tag = some out)
    (hv : out.BoxInformation.Valid = true) : tag.BoxInformation.Valid = true := by
  cases hvalid : tag.BoxInformation.Valid with
  | true => rfl
  | false =>
    rw [recomputeTag_unanchored box imageSizeID tag hvalid] at h
    injection h with h
    rw [← h, hvalid] at hv
    exact hv

/-- An `int` operation whose mathematical result is an `int` yields it. -/
theorem wrapInt_of_isInt (x : Int) (h : isInt x) : wrapInt x = x := by
  unfold wrapInt
  unfold isInt at h
  omega

/-- The rule the code applies on the x axis to a tag box that starts before the
crop's left edge and reaches it, when the right edge of the box is an `int`: the
new left is the crop's left, the new width is the part of the box at or after
the crop's left edge. -/
theorem recomputeX_left_outside (box : Box) (tlx width : Int) (hbox : isInt box.Tlx)
    (hwidth : isInt width) (hedge : isInt (tlx + width))
    (h : tlx < box.Tlx) (hreach : box.Tlx ≤ tlx + width) :
    recomputeX box tlx width = (box.Tlx, width - (box.Tlx - tlx)) := by
  unfold isInt at hbox hwidth hedge
  unfold recomputeX
  simp only [h, if_true, addInt, subInt, wrapInt]
  rw [if_neg (by omega)]
  congr 1
  omega

/-- C1 (code defect). On the spec's scenario, tag
`{left:10, top:10, width:100, height:100}` and crop
`{left:50, top:0, width:200, height:200}`, the code returns the box
`{left:50, top:10, width:60, height:100}`: the left-clipped origin is the crop's
left edge in the old coordinates, 50, and not 0. -/
theorem C1_left_clip_scenario :
    ∃ out,
      updatePictureTagBoxes ⟨50, 0, 200, 200⟩
          (Sample.picture [(1, Sample.anchored ⟨10, 10, 100, 100⟩)]) 9 5 8 = Except.ok out ∧
        (GoMap.lookup 1 out.Tags).map (fun tag => tag.BoxInformation.Body.Box) =
          some ⟨50, 10, 60, 100⟩ :=
  ⟨_, rfl, by decide⟩

/-- C2 (code defect). With tag `{left:0, top:0, width:300, height:100}` and crop
`{left:100, top:0, width:100, height:200}` the tag survives with the box
`{left:100, top:0, width:200, height:100}`, which is not contained in
`[0, 100] × [0, 200]`: its width alone exceeds the crop's width. -/
theorem C2_clip_not_contained :
    ∃ out,
      updatePictureTagBoxes ⟨100, 0, 100, 200⟩
          (Sample.picture [(1, Sample.anchored ⟨0, 0, 300, 100⟩)]) 9 5 8 = Except.ok out ∧
        ∃ tag, GoMap.lookup 1 out.Tags = some tag ∧
          tag.BoxInformation.Body.Box = ⟨100, 0, 200, 100⟩ ∧
          ¬ (tag.BoxInformation.Body.Box.Tlx + tag.BoxInformation.Body.Box.Width ≤ 100) ∧
          ¬ (tag.BoxInformation.Body.Box.Width ≤ 100) :=
  ⟨_, rfl, _, rfl, by decide, by decide, by decide⟩

/-- C3 (code defect). With `imageSizeID = 9` and `uuid.New()` returning `8`, the
surviving tag of the returned picture points to the size `9`, and the returned
picture's sizes have the keys `8` (the appended entry) and `7`, not `9`. -/
theorem C3_dangling_imageSizeID :
    ∃ out,
      updatePictureTagBoxes ⟨0, 0, 200, 200⟩
          (Sample.picture [(1, Sample.anchored ⟨10, 10, 100, 100⟩)]) 9 5 8 = Except.ok out ∧
        ∃ tag, GoMap.lookup 1 out.Tags = some tag ∧
          tag.BoxInformation.Valid = true ∧
          tag.BoxInformation.Body.ImageSizeID = 9 ∧
          GoMap.lookup tag.BoxInformation.Body.ImageSizeID out.Sizes = none ∧
          GoMap.keys out.Sizes = [8, 7] :=
  ⟨_, rfl, _, rfl, by decide, by decide, by decide, by decide⟩

/-- C4. Drop threshold: in the picture `updatePictureTagBoxes` returns, every
tag with box information has width at least 50 and height at least 50; and an
anchored tag of the input whose recomputed width or recomputed height is below
50 is absent from the returned tag set. -/
theorem C4_drop_threshold (box : Box) (picture : Picture) (imageSizeID : UUID)
    (now : Time) (newID : UUID) :
    ∃ out, updatePictureTagBoxes box picture imageSizeID now newID = Except.ok out ∧
      (∀ tagID tag, GoMap.lookup tagID out.Tags = some tag →
        tag.BoxInformation.Valid = true →
        50 ≤ tag.BoxInformation.Body.Box.Width ∧ 50 ≤ tag.BoxInformation.Body.Box.Height) ∧
      (∀ tagID tag, GoMap.lookup tagID picture.Tags = some tag →
        tag.BoxInformation.Valid = true →
        ((recomputeX box tag.BoxInformation.Body.Box.Tlx
            tag.BoxInformation.Body.Box.Width).2 < 50 ∨
          (recomputeY box tag.BoxInformation.Body.Box.Tly
            tag.BoxInformation.Body.Box.Height).2 < 50) →
        GoMap.lookup tagID out.Tags = none) := by
  refine ⟨_, updatePictureTagBoxes_eq box picture imageSizeID now newID, ?_, ?_⟩
  · intro tagID out hout hv
    obtain ⟨tag, -, hrec⟩ := (lookup_updateTags_eq_some box imageSizeID _ tagID out).1 hout
    have hvalid := anchored_of_recomputeTag box imageSizeID tag out hrec hv
    obtain ⟨⟨-, hw, -, hh⟩, rfl⟩ :=
      (recomputeTag_anchored_eq_some box imageSizeID tag out hvalid).1 hrec
    exact ⟨hw, hh⟩
  · intro tagID tag hin hvalid hsmall
    show GoMap.lookup tagID (updateTags box imageSizeID picture.Tags) = none
    rw [lookup_updateTags, hin]
    cases hrec : recomputeTag box imageSizeID tag with
    | none => simp [hrec]
    | some out =>
      obtain ⟨⟨-, hw, -, hh⟩, -⟩ :=
        (recomputeTag_anchored_eq_some box imageSizeID tag out hvalid).1 hrec
      omega

/-- C4 at the spec's scenario: the tag `{left:0, top:0, width:60, height:5}` is
dropped by the crop `{left:0, top:0, width:100, height:100}`, although its width
is fully inside the crop. -/
theorem C4_drop_threshold_witness :
    ∃ out,
      updatePictureTagBoxes ⟨0, 0, 100, 100⟩
          (Sample.picture [(1, Sample.anchored ⟨0, 0, 60, 5⟩)]) 9 5 8 = Except.ok out ∧
        (recomputeX ⟨0, 0, 100, 100⟩ 0 60).2 = 60 ∧
        (recomputeY ⟨0, 0, 100, 100⟩ 0 5).2 = 5 ∧
        GoMap.lookup 1 out.Tags = none := by
  obtain ⟨out, hout, -, hdrop⟩ :=
    C4_drop_threshold ⟨0, 0, 100, 100⟩ (Sample.picture [(1, Sample.anchored ⟨0, 0, 60, 5⟩)]) 9 5 8
  exact ⟨out, hout, by decide, by decide,
    hdrop 1 (Sample.anchored ⟨0, 0, 60, 5⟩) (by decide) (by decide) (Or.inr (by decide))⟩

/-- C5 (as stated, refuted). With the crop `{left:0, top:0, width:100, height:100}`
the tag `{left:100, top:0, width:2^63-1, height:100}` starts at the crop's right
edge, so it does not overlap the crop on the x axis; `tlx + width` wraps around
at line 252, the width is left as it is, and the tag is kept, with the box it
had. -/
theorem C5_disjoint_kept_on_overflow :
    (0 : Int) + 100 ≤ 100 ∧
      ∃ out,
        updatePictureTagBoxes ⟨0, 0, 100, 100⟩
            (Sample.picture [(1, Sample.anchored ⟨100, 0, Sample.maxInt, 100⟩)]) 9 5 8 =
            Except.ok out ∧
          (GoMap.lookup 1 out.Tags).map (fun tag => tag.BoxInformation.Body.Box) =
            some ⟨100, 0, Sample.maxInt, 100⟩ :=
  ⟨by decide, _, rfl, by decide⟩

/-- C5 (amended). Disjoint-box drop: for a crop box of non-negative width and
height, an anchored tag whose right edge `tlx + width` and bottom edge
`tly + height` are values of `int`, and whose box does not overlap the crop on
some axis (it starts at or after the crop's far edge, or ends at or before the
crop's near edge, touching included), is absent from the tag set
`updatePictureTagBoxes` returns. -/
theorem C5_disjoint_drop (box : Box) (picture : Picture) (imageSizeID : UUID)
    (now : Time) (newID : UUID) (hbox : box.inRange)
    (hw : 0 ≤ box.Width) (hh : 0 ≤ box.Height) :
    ∃ out, updatePictureTagBoxes box picture imageSizeID now newID = Except.ok out ∧
      ∀ tagID tag, GoMap.lookup tagID picture.Tags = some tag →
        tag.BoxInformation.Valid = true →
        tag.BoxInformation.Body.Box.inRange →
        isInt (tag.BoxInformation.Body.Box.Tlx + tag.BoxInformation.Body.Box.Width) →
        isInt (tag.BoxInformation.Body.Box.Tly + tag.BoxInformation.Body.Box.Height) →
        (box.Tlx + box.Width ≤ tag.BoxInformation.Body.Box.Tlx ∨
          tag.BoxInformation.Body.Box.Tlx + tag.BoxInformation.Body.Box.Width ≤ box.Tlx ∨
          box.Tly + box.Height ≤ tag.BoxInformation.Body.Box.Tly ∨
          tag.BoxInformation.Body.Box.Tly + tag.BoxInformation.Body.Box.Height ≤ box.Tly) →
        GoMap.lookup tagID out.Tags = none := by
  refine ⟨_, updatePictureTagBoxes_eq box picture imageSizeID now newID, ?_⟩
  intro tagID tag hin hvalid htag hright hbottom hdisjoint
  show GoMap.lookup tagID (updateTags box imageSizeID picture.Tags) = none
  rw [lookup_updateTags, hin]
  cases hrec : recomputeTag box imageSizeID tag with
  | none => simp [hrec]
  | some out =>
    obtain ⟨⟨hx, hwidth, hy, hheight⟩, -⟩ :=
      (recomputeTag_anchored_eq_some box imageSizeID tag out hvalid).1 hrec
    exfalso
    unfold Box.inRange isInt at hbox htag
    unfold isInt at hright hbottom
    unfold recomputeX at hwidth
    unfold recomputeY at hheight
    simp only [addInt, subInt, wrapInt] at hx hy hwidth hheight
    rcases hdisjoint with hd | hd | hd | hd
    · split_ifs at hwidth <;> omega
    · split_ifs at hwidth <;> omega
    · split_ifs at hheight <;> omega
    · split_ifs at hheight <;> omega

/-- C5 (amended) at the spec's scenario: the tag
`{left:0, top:0, width:20, height:20}` is dropped by the crop
`{left:100, top:100, width:50, height:50}`. -/
theorem C5_disjoint_drop_witness :
    ∃ out,
      updatePictureTagBoxes ⟨100, 100, 50, 50⟩
          (Sample.picture [(1, Sample.anchored ⟨0, 0, 20, 20⟩)]) 9 5 8 = Except.ok out ∧
        GoMap.lookup 1 out.Tags = none := by
  obtain ⟨out, hout, hdrop⟩ :=
    C5_disjoint_drop ⟨100, 100, 50, 50⟩ (Sample.picture [(1, Sample.anchored ⟨0, 0, 20, 20⟩)])
      9 5 8 (by decide) (by decide) (by decide)
  exact ⟨out, hout,
    hdrop 1 (Sample.anchored ⟨0, 0, 20, 20⟩) (by decide) (by decide) (by decide) (by decide)
      (by decide) (Or.inr (Or.inl (by decide)))⟩

/-- C6 (as stated, refuted). With the crop `{left:0, top:0, width:100, height:100}`
the tag `{left:50, top:0, width:2^63-1, height:100}` starts inside the crop on
the x axis and survives; `tlx + width` wraps around at line 252, so the width is
not clipped to the crop's right edge: it stays `2^63 - 1`, while
`min e_t (c + e_c - t)` is 50. -/
theorem C6_inside_not_clipped_on_overflow :
    ((0 : Int) ≤ 50 ∧ (50 : Int) ≤ 0 + 100) ∧
      min Sample.maxInt (0 + 100 - 50) = 50 ∧
      ∃ out,
        updatePictureTagBoxes ⟨0, 0, 100, 100⟩
            (Sample.picture [(1, Sample.anchored ⟨50, 0, Sample.maxInt, 100⟩)]) 9 5 8 =
            Except.ok out ∧
          (GoMap.lookup 1 out.Tags).map (fun tag => tag.BoxInformation.Body.Box) =
            some ⟨50, 0, Sample.maxInt, 100⟩ :=
  ⟨by decide, by decide, _, rfl, by decide⟩

/-- C6 (amended). Inside rule: for an anchored tag that survives
`updatePictureTagBoxes`, on each axis where the tag starts inside the crop
(`c ≤ t ≤ c + e_c`) and where the far edge `t + e_t` of the tag and the
difference `t - c` are values of `int`, the recomputed origin is `t - c` and the
recomputed extent is `min e_t (c + e_c - t)`. -/
theorem C6_inside_rule (box : Box) (picture : Picture) (imageSizeID : UUID)
    (now : Time) (newID : UUID) (hbox : box.inRange) :
    ∃ out, updatePictureTagBoxes box picture imageSizeID now newID = Except.ok out ∧
      ∀ tagID tag new, GoMap.lookup tagID picture.Tags = some tag →
        tag.BoxInformation.Valid = true →
        tag.BoxInformation.Body.Box.inRange →
        GoMap.lookup tagID out.Tags = some new →
        ((box.Tlx ≤ tag.BoxInformation.Body.Box.Tlx ∧
            tag.BoxInformation.Body.Box.Tlx ≤ box.Tlx + box.Width) →
          isInt (tag.BoxInformation.Body.Box.Tlx + tag.BoxInformation.Body.Box.Width) →
          isInt (tag.BoxInformation.Body.Box.Tlx - box.Tlx) →
          new.BoxInformation.Body.Box.Tlx = tag.BoxInformation.Body.Box.Tlx - box.Tlx ∧
          new.BoxInformation.Body.Box.Width =
            min tag.BoxInformation.Body.Box.Width
              (box.Tlx + box.Width - tag.BoxInformation.Body.Box.Tlx)) ∧
        ((box.Tly ≤ tag.BoxInformation.Body.Box.Tly ∧
            tag.BoxInformation.Body.Box.Tly ≤ box.Tly + box.Height) →
          isInt (tag.BoxInformation.Body.Box.Tly + tag.BoxInformation.Body.Box.Height) →
          isInt (tag.BoxInformation.Body.Box.Tly - box.Tly) →
          new.BoxInformation.Body.Box.Tly = tag.BoxInformation.Body.Box.Tly - box.Tly ∧
          new.BoxInformation.Body.Box.Height =
            min tag.BoxInformation.Body.Box.Height
              (box.Tly + box.Height - tag.BoxInformation.Body.Box.Tly)) := by
  refine ⟨_, updatePictureTagBoxes_eq box picture imageSizeID now newID, ?_⟩
  intro tagID tag new hin hvalid htag hout
  have hout2 : GoMap.lookup tagID (updateTags box imageSizeID picture.Tags) = some new := hout
  rw [lookup_updateTags, hin] at hout2
  obtain ⟨⟨hx, -, hy, -⟩, rfl⟩ :=
    (recomputeTag_anchored_eq_some box imageSizeID tag new hvalid).1 hout2
  unfold Box.inRange isInt at hbox htag
  simp only [addInt, wrapInt] at hx hy
  constructor
  · rintro ⟨h1, h2⟩ hedge hdiff
    unfold isInt at hedge hdiff
    show (recomputeX box _ _).1 = _ ∧ (recomputeX box _ _).2 = _
    unfold recomputeX
    rw [if_neg (by omega)]
    refine ⟨by simp only [subInt, wrapInt]; omega, ?_⟩
    simp only [addInt, subInt, wrapInt]
    by_cases hfar : tag.BoxInformation.Body.Box.Tlx + tag.BoxInformation.Body.Box.Width >
        box.Tlx + box.Width
    · rw [if_pos (by omega), min_eq_right (by omega)]
      omega
    · rw [if_neg (by omega), min_eq_left (by omega)]
  · rintro ⟨h1, h2⟩ hedge hdiff
    unfold isInt at hedge hdiff
    show (recomputeY box _ _).1 = _ ∧ (recomputeY box _ _).2 = _
    unfold recomputeY
    rw [if_neg (by omega)]
    refine ⟨by simp only [subInt, wrapInt]; omega, ?_⟩
    simp only [addInt, subInt, wrapInt]
    by_cases hfar : tag.BoxInformation.Body.Box.Tly + tag.BoxInformation.Body.Box.Height >
        box.Tly + box.Height
    · rw [if_pos (by omega), min_eq_right (by omega)]
      omega
    · rw [if_neg (by omega), min_eq_left (by omega)]

/-- C6 (amended) at a concrete input: the tag
`{left:70, top:20, width:300, height:60}` starts inside the crop
`{left:50, top:0, width:200, height:200}` on both axes; it is clipped to the
crop's right edge on x and unchanged on y. -/
theorem C6_inside_rule_witness :
    ∃ out,
      updatePictureTagBoxes ⟨50, 0, 200, 200⟩
          (Sample.picture [(1, Sample.anchored ⟨70, 20, 300, 60⟩)]) 9 5 8 = Except.ok out ∧
        ∃ new, GoMap.lookup 1 out.Tags = some new ∧
          (new.BoxInformation.Body.Box.Tlx = 70 - 50 ∧
            new.BoxInformation.Body.Box.Width = min 300 (50 + 200 - 70)) ∧
          (new.BoxInformation.Body.Box.Tly = 20 - 0 ∧
            new.BoxInformation.Body.Box.Height = min 60 (0 + 200 - 20)) := by
  obtain ⟨out, hout, hrule⟩ :=
    C6_inside_rule ⟨50, 0, 200, 200⟩ (Sample.picture [(1, Sample.anchored ⟨70, 20, 300, 60⟩)])
      9 5 8 (by decide)
  cases hout
  have h := hrule 1 (Sample.anchored ⟨70, 20, 300, 60⟩) _ (by decide) (by decide) (by decide)
    rfl
  exact ⟨_, rfl, _, rfl, h.1 (by decide) (by decide) (by decide),
    h.2 (by decide) (by decide) (by decide)⟩

/-- C8. Unanchored tags pass through: every tag of the input without box
information is bound, under the same identifier, to the identical value in the
tag set `updatePictureTagBoxes` returns, and every tag identifier of the
returned tag set is a tag identifier of the input. -/
theorem C8_unanchored_pass_through (box : Box) (picture : Picture) (imageSizeID : UUID)
    (now : Time) (newID : UUID) :
    ∃ out, updatePictureTagBoxes box picture imageSizeID now newID = Except.ok out ∧
      (∀ tagID tag, GoMap.lookup tagID picture.Tags = some tag →
        tag.BoxInformation.Valid = false →
        GoMap.lookup tagID out.Tags = some tag) ∧
      (∀ tagID new, GoMap.lookup tagID out.Tags = some new →
        ∃ tag, GoMap.lookup tagID picture.Tags = some tag) := by
  refine ⟨_, updatePictureTagBoxes_eq box picture imageSizeID now newID, ?_, ?_⟩
  · intro tagID tag hin hvalid
    show GoMap.lookup tagID (updateTags box imageSizeID picture.Tags) = some tag
    rw [lookup_updateTags, hin]
    exact recomputeTag_unanchored box imageSizeID tag hvalid
  · intro tagID new hout
    obtain ⟨tag, hin, -⟩ :=
      (lookup_updateTags_eq_some box imageSizeID picture.Tags tagID new).1 hout
    exact ⟨tag, hin⟩

/-- C8 at a concrete input: an unanchored tag next to an anchored one that the
crop drops. -/
theorem C8_unanchored_pass_through_witness :
    ∃ out,
      updatePictureTagBoxes ⟨100, 100, 50, 50⟩
          (Sample.picture [(1, Sample.anchored ⟨0, 0, 20, 20⟩), (2, Sample.unanchored)])
          9 5 8 = Except.ok out ∧
        GoMap.lookup 2 out.Tags = some Sample.unanchored ∧
        GoMap.keys out.Tags = [2] := by
  obtain ⟨out, hout, hpass, -⟩ :=
    C8_unanchored_pass_through ⟨100, 100, 50, 50⟩
      (Sample.picture [(1, Sample.anchored ⟨0, 0, 20, 20⟩), (2, Sample.unanchored)]) 9 5 8
  refine ⟨out, hout, hpass 2 Sample.unanchored (by decide) (by decide), ?_⟩
  cases hout
  decide

/-- C9. Shrink-only: for an anchored tag with non-negative coordinates that
survives `updatePictureTagBoxes`, the recomputed width is at most the original
width and the recomputed height is at most the original height. -/
theorem C9_shrink_only (box : Box) (picture : Picture) (imageSizeID : UUID)
    (now : Time) (newID : UUID) :
    ∃ out, updatePictureTagBoxes box picture imageSizeID now newID = Except.ok out ∧
      ∀ tagID tag new, GoMap.lookup tagID picture.Tags = some tag →
        tag.BoxInformation.Valid = true →
        tag.BoxInformation.Body.Box.inRange →
        (0 ≤ tag.BoxInformation.Body.Box.Tlx ∧ 0 ≤ tag.BoxInformation.Body.Box.Tly ∧
          0 ≤ tag.BoxInformation.Body.Box.Width ∧ 0 ≤ tag.BoxInformation.Body.Box.Height) →
        GoMap.lookup tagID out.Tags = some new →
        new.BoxInformation.Body.Box.Width ≤ tag.BoxInformation.Body.Box.Width ∧
        new.BoxInformation.Body.Box.Height ≤ tag.BoxInformation.Body.Box.Height := by
  refine ⟨_, updatePictureTagBoxes_eq box picture imageSizeID now newID, ?_⟩
  intro tagID tag new hin hvalid htag hpos hout
  have hout2 : GoMap.lookup tagID (updateTags box imageSizeID picture.Tags) = some new := hout
  rw [lookup_updateTags, hin] at hout2
  obtain ⟨⟨hx, hwidth, hy, hheight⟩, rfl⟩ :=
    (recomputeTag_anchored_eq_some box imageSizeID tag new hvalid).1 hout2
  unfold Box.inRange isInt at htag
  show (recomputeX box _ _).2 ≤ _ ∧ (recomputeY box _ _).2 ≤ _
  unfold recomputeX at hwidth ⊢
  unfold recomputeY at hheight ⊢
  simp only [addInt, subInt, wrapInt] at hx hy hwidth hheight ⊢
  constructor
  · split_ifs at hwidth ⊢ <;> omega
  · split_ifs at hheight ⊢ <;> omega

/-- C9 at a concrete input: the tag `{left:10, top:10, width:100, height:100}`
survives the crop `{left:50, top:0, width:200, height:200}` with width 60 and
height 100. -/
theorem C9_shrink_only_witness :
    ∃ out,
      updatePictureTagBoxes ⟨50, 0, 200, 200⟩
          (Sample.picture [(1, Sample.anchored ⟨10, 10, 100, 100⟩)]) 9 5 8 = Except.ok out ∧
        ∃ new, GoMap.lookup 1 out.Tags = some new ∧
          new.BoxInformation.Body.Box.Width = 60 ∧
          new.BoxInformation.Body.Box.Height = 100 ∧
          new.BoxInformation.Body.Box.Width ≤ 100 ∧
          new.BoxInformation.Body.Box.Height ≤ 100 := by
  obtain ⟨out, hout, hshrink⟩ :=
    C9_shrink_only ⟨50, 0, 200, 200⟩
      (Sample.picture [(1, Sample.anchored ⟨10, 10, 100, 100⟩)]) 9 5 8
  cases hout
  have h := hshrink 1 (Sample.anchored ⟨10, 10, 100, 100⟩) _ (by decide) (by decide)
    (by decide) (by decide) rfl
  exact ⟨_, rfl, _, rfl, by decide, by decide, h.1, h.2⟩

/-! ## Lemmas on the stores and the controller -/

namespace PictureStore

/-- A record found under a key has that key. -/
theorem hasKey_of_get (s : PictureStore) (origin name : String) (p : Picture)
    (h : s.get origin name = some p) : hasKey origin name p = true :=
  List.find?_some h

/-- After a delete the key is absent. -/
theorem get_filter_not_hasKey (s : PictureStore) (origin name : String) :
    get (s.filter (fun p => !hasKey origin name p)) origin name = none := by
  unfold get
  rw [List.find?_eq_none]
  intro p hp
  have := (List.mem_filter.1 hp).2
  simpa using this

/-- A record just created is the one found under its key. -/
theorem get_cons_self (s : PictureStore) (origin name : String) (p : Picture)
    (h : hasKey origin name p = true) : get (p :: s) origin name = some p := by
  unfold get
  rw [List.find?_cons, h]

end PictureStore

namespace ControllerPicture

theorem store_setStore_same (c : ControllerPicture) (d : Driver) (s : PictureStore) :
    (c.setStore d s).store d = s := by
  cases d <;> rfl

theorem store_setStore_other (c : ControllerPicture) (d d' : Driver) (s : PictureStore)
    (h : d' ≠ d) : (c.setStore d s).store d' = c.store d' := by
  cases d <;> cases d' <;> first | rfl | exact absurd rfl h

/-- Two stage identifiers that resolve to the same driver are equal. -/
theorem driverDynamodbMap_injective (a b : String) (d : Driver)
    (ha : driverDynamodbMap a = Except.ok d) (hb : driverDynamodbMap b = Except.ok d) :
    a = b := by
  unfold driverDynamodbMap at ha hb
  split_ifs at ha hb <;> (try cases ha) <;> (try cases hb) <;> simp_all

/-- The outcome of a `TransferPicture` call whose two stage identifiers resolve,
whose source store holds the record and whose three sub-steps succeed. -/
theorem TransferPicture_ok_iff (c : ControllerPicture) (env : TransferFaults)
    (picture : Picture) (fromState toState : String) (dFrom dTo : Driver) (old : Picture)
    (hFrom : driverDynamodbMap fromState = Except.ok dFrom)
    (hTo : driverDynamodbMap toState = Except.ok dTo)
    (hold : (c.store dFrom).get picture.Origin picture.Name = some old)
    (hok : (c.TransferPicture env picture fromState toState).1 = Except.ok ()) :
    (c.store dTo).get old.Origin old.Name = none ∧
      (c.TransferPicture env picture fromState toState).2 =
        (c.setStore dTo (old :: c.store dTo)).setStore dFrom
          (((c.setStore dTo (old :: c.store dTo)).store dFrom).filter
            (fun p => !PictureStore.hasKey picture.Origin picture.Name p)) := by
  unfold TransferPicture at hok ⊢
  simp only [hFrom, hTo] at hok ⊢
  unfold PictureStore.ReadPicture at hok ⊢
  cases hr : env.read with
  | true => simp [hr] at hok
  | false =>
    simp only [hr, hold, Bool.false_eq_true, if_false] at hok ⊢
    unfold PictureStore.CreatePicture at hok ⊢
    cases hc : env.create with
    | true => simp [hc] at hok
    | false =>
      simp only [hc, Bool.false_eq_true, if_false] at hok ⊢
      cases hget : (c.store dTo).get old.Origin old.Name with
      | some q => simp [hget] at hok
      | none =>
        simp only [hget] at hok ⊢
        unfold PictureStore.DeletePicture at hok ⊢
        cases hd : env.delete with
        | true => simp [hd] at hok
        | false =>
          simp only [hd, Bool.false_eq_true, if_false]
          exact ⟨trivial, trivial⟩

end ControllerPicture

/-- C10. Stage exclusivity: for two distinct stage identifiers that
`driverDynamodbMap` resolves (to the stores `dA` and `dB`) and a key that the
store of `A` holds, if `TransferPicture picture A B` returns no error then
afterwards the key is absent from the store of `A` and the store of `B` holds,
under that key, the record that was read from `A`. -/
theorem C10_stage_exclusivity (c : ControllerPicture) (env : TransferFaults)
    (picture : Picture) (A B : String) (dA dB : Driver) (old : Picture)
    (hA : ControllerPicture.driverDynamodbMap A = Except.ok dA)
    (hB : ControllerPicture.driverDynamodbMap B = Except.ok dB)
    (hAB : A ≠ B)
    (hold : (c.store dA).get picture.Origin picture.Name = some old)
    (hok : (c.TransferPicture env picture A B).1 = Except.ok ()) :
    (((c.TransferPicture env picture A B).2).store dA).get picture.Origin picture.Name = none ∧
      (((c.TransferPicture env picture A B).2).store dB).get picture.Origin picture.Name =
        some old := by
  have hne : dB ≠ dA := fun h =>
    hAB (ControllerPicture.driverDynamodbMap_injective A B dA hA (h ▸ hB))
  obtain ⟨-, hafter⟩ :=
    ControllerPicture.TransferPicture_ok_iff c env picture A B dA dB old hA hB hold hok
  rw [hafter]
  constructor
  · rw [ControllerPicture.store_setStore_same]
    exact PictureStore.get_filter_not_hasKey _ _ _
  · rw [ControllerPicture.store_setStore_other _ dA dB _ hne,
      ControllerPicture.store_setStore_same]
    exact PictureStore.get_cons_self _ _ _ _ (PictureStore.hasKey_of_get _ _ _ _ hold)

/-- C10 at a concrete input: a picture held by the process store is transferred
to the empty validation store. -/
theorem C10_stage_exclusivity_witness :
    ControllerPicture.driverDynamodbMap "process" = Except.ok Driver.DynamodbProcess ∧
      ControllerPicture.driverDynamodbMap "validation" = Except.ok Driver.DynamodbValidation ∧
      (({ DynamodbProcess := [Sample.picture []] } : ControllerPicture).TransferPicture {}
        (Sample.picture []) "process" "validation").1 = Except.ok () ∧
      ((({ DynamodbProcess := [Sample.picture []] } : ControllerPicture).TransferPicture {}
        (Sample.picture []) "process" "validation").2.store Driver.DynamodbProcess).get
          "flickr" "p1" = none ∧
      ((({ DynamodbProcess := [Sample.picture []] } : ControllerPicture).TransferPicture {}
        (Sample.picture []) "process" "validation").2.store Driver.DynamodbValidation).get
          "flickr" "p1" = some (Sample.picture []) :=
  have h :=
    C10_stage_exclusivity { DynamodbProcess := [Sample.picture []] } {} (Sample.picture [])
      "process" "validation" Driver.DynamodbProcess Driver.DynamodbValidation
      (Sample.picture []) rfl rfl (by decide) rfl rfl
  ⟨rfl, rfl, rfl, h.1, h.2⟩

/-! ## Transfer: failures and identity -/

namespace ControllerPicture

/-- A stage identifier other than the three review stages is rejected. -/
theorem driverDynamodbMap_error (state : String)
    (h : state ∉ ["process", "validation", "production"]) :
    driverDynamodbMap state = Except.error (Error.tableNotAvailable state) := by
  simp only [List.mem_cons, List.mem_singleton, List.not_mem_nil, or_false, not_or] at h
  unfold driverDynamodbMap
  rw [if_neg h.2.2, if_neg h.2.1, if_neg h.1]

/-- A stage identifier that resolves is one of the three review stages, and the
driver it resolves to is not the blocked store. -/
theorem driverDynamodbMap_ok (state : String) (d : Driver)
    (h : driverDynamodbMap state = Except.ok d) :
    state ∈ ["process", "validation", "production"] ∧ d ≠ Driver.DynamodbBlocked := by
  unfold driverDynamodbMap at h
  split_ifs at h with h1 h2 h3 <;> cases h <;> simp_all

/-- A successful read returns the record stored under the key. -/
theorem ReadPicture_ok (s : PictureStore) (fails : Bool) (origin name : String)
    (old : Picture) (h : s.ReadPicture fails origin name = Except.ok old) :
    s.get origin name = some old := by
  unfold PictureStore.ReadPicture at h
  cases fails with
  | true => simp at h
  | false =>
    cases hget : s.get origin name with
    | none => simp [hget] at h
    | some p =>
      simp only [hget, Bool.false_eq_true, if_false] at h
      cases h
      rfl

/-- A successful create found the key free and added the record. -/
theorem CreatePicture_ok (s created : PictureStore) (fails : Bool) (picture : Picture)
    (h : s.CreatePicture fails picture = Except.ok created) :
    s.get picture.Origin picture.Name = none ∧ created = picture :: s := by
  unfold PictureStore.CreatePicture at h
  cases fails with
  | true => simp at h
  | false =>
    cases hget : s.get picture.Origin picture.Name with
    | some p => simp [hget] at h
    | none =>
      simp only [hget, Bool.false_eq_true, if_false] at h
      cases h
      exact ⟨rfl, rfl⟩

/-- The outcome of `TransferPicture` when the stage identifiers resolve and the
read and the create succeed: the delete decides. -/
theorem TransferPicture_after_create (c : ControllerPicture) (env : TransferFaults)
    (picture : Picture) (fromState toState : String) (dFrom dTo : Driver)
    (old : Picture) (created : PictureStore)
    (hFrom : driverDynamodbMap fromState = Except.ok dFrom)
    (hTo : driverDynamodbMap toState = Except.ok dTo)
    (hread : (c.store dFrom).ReadPicture env.read picture.Origin picture.Name = Except.ok old)
    (hcreate : (c.store dTo).CreatePicture env.create old = Except.ok created) :
    c.TransferPicture env picture fromState toState =
      match ((c.setStore dTo created).store dFrom).DeletePicture env.delete
          picture.Origin picture.Name with
      | Except.error err => (Except.error err, c.setStore dTo created)
      | Except.ok deleted =>
        (Except.ok (), (c.setStore dTo created).setStore dFrom deleted) := by
  unfold TransferPicture
  simp only [hFrom, hTo, hread, hcreate]

/-- When the read found the record and the create succeeded, source and
destination are different stores. -/
theorem driver_ne_of_create (c : ControllerPicture) (picture : Picture) (dFrom dTo : Driver)
    (old : Picture) (hold : (c.store dFrom).get picture.Origin picture.Name = some old)
    (hfree : (c.store dTo).get old.Origin old.Name = none) : dFrom ≠ dTo := by
  rintro rfl
  have hkey := PictureStore.hasKey_of_get _ _ _ _ hold
  unfold PictureStore.hasKey at hkey
  simp only [Bool.and_eq_true, decide_eq_true_eq] at hkey
  rw [hkey.1, hkey.2, hold] at hfree
  cases hfree

end ControllerPicture

/-- C11 (as stated, refuted). A transfer from the process store to the validation
store whose delete fails returns the error of the delete, `unavailable`: the
same value a transfer returns whose read fails and which leaves both stores
untouched. The report does not single out the partial transfer, and carries
neither a stage nor a key. -/
theorem C11_partial_failure_not_identified :
    (({ DynamodbProcess := [Sample.picture []] } : ControllerPicture).TransferPicture
        { delete := true } (Sample.picture []) "process" "validation").1 =
        Except.error Error.unavailable ∧
      (({ DynamodbProcess := [Sample.picture []] } : ControllerPicture).TransferPicture
        { read := true } (Sample.picture []) "process" "validation") =
        (Except.error Error.unavailable, { DynamodbProcess := [Sample.picture []] }) ∧
      (({ DynamodbProcess := [Sample.picture []] } : ControllerPicture).TransferPicture
        { delete := true } (Sample.picture []) "process" "validation").2 =
        { DynamodbProcess := [Sample.picture []], DynamodbValidation := [Sample.picture []] } :=
  ⟨rfl, rfl, rfl⟩

/-- C11 (amended). When the read from the source store and the create in the
destination store succeed and the delete from the source store fails with
`err`, `TransferPicture` returns `err` as it is, the key is bound to the record
read in both the source and the destination store afterwards, and the only
change to the controller is the record added to the destination store. -/
theorem C11_partial_failure (c : ControllerPicture) (env : TransferFaults)
    (picture : Picture) (fromState toState : String) (dFrom dTo : Driver)
    (old : Picture) (created : PictureStore) (err : Error)
    (hFrom : ControllerPicture.driverDynamodbMap fromState = Except.ok dFrom)
    (hTo : ControllerPicture.driverDynamodbMap toState = Except.ok dTo)
    (hread : (c.store dFrom).ReadPicture env.read picture.Origin picture.Name = Except.ok old)
    (hcreate : (c.store dTo).CreatePicture env.create old = Except.ok created)
    (hdelete : ((c.setStore dTo created).store dFrom).DeletePicture env.delete
      picture.Origin picture.Name = Except.error err) :
    (c.TransferPicture env picture fromState toState).1 = Except.error err ∧
      (((c.TransferPicture env picture fromState toState).2).store dFrom).get
        picture.Origin picture.Name = some old ∧
      (((c.TransferPicture env picture fromState toState).2).store dTo).get
        picture.Origin picture.Name = some old ∧
      (c.TransferPicture env picture fromState toState).2 =
        c.setStore dTo (old :: c.store dTo) := by
  have hold := ControllerPicture.ReadPicture_ok _ _ _ _ _ hread
  obtain ⟨hfree, rfl⟩ := ControllerPicture.CreatePicture_ok _ _ _ _ hcreate
  have hne := ControllerPicture.driver_ne_of_create c picture dFrom dTo old hold hfree
  rw [ControllerPicture.TransferPicture_after_create c env picture fromState toState dFrom dTo
    old _ hFrom hTo hread hcreate]
  simp only [hdelete]
  refine ⟨trivial, ?_, ?_, trivial⟩
  · rw [ControllerPicture.store_setStore_other _ dTo dFrom _ hne]
    exact hold
  · rw [ControllerPicture.store_setStore_same]
    exact PictureStore.get_cons_self _ _ _ _ (PictureStore.hasKey_of_get _ _ _ _ hold)

/-- C11 (amended) at a concrete input: a transfer from the process store to the
validation store whose delete fails. -/
theorem C11_partial_failure_witness :
    (({ DynamodbProcess := [Sample.picture []] } : ControllerPicture).TransferPicture
        { delete := true } (Sample.picture []) "process" "validation").1 =
        Except.error Error.unavailable ∧
      ((({ DynamodbProcess := [Sample.picture []] } : ControllerPicture).TransferPicture
        { delete := true } (Sample.picture []) "process" "validation").2.store
          Driver.DynamodbProcess).get "flickr" "p1" = some (Sample.picture []) ∧
      ((({ DynamodbProcess := [Sample.picture []] } : ControllerPicture).TransferPicture
        { delete := true } (Sample.picture []) "process" "validation").2.store
          Driver.DynamodbValidation).get "flickr" "p1" = some (Sample.picture []) :=
  have h :=
    C11_partial_failure { DynamodbProcess := [Sample.picture []] } { delete := true }
      (Sample.picture []) "process" "validation" Driver.DynamodbProcess
      Driver.DynamodbValidation (Sample.picture []) [Sample.picture []] Error.unavailable
      rfl rfl rfl rfl rfl
  ⟨h.1, h.2.1, h.2.2.1⟩

/-- C12. Transfer never loses a picture: when the source stage resolves and its
store holds the key, then after `TransferPicture`, whatever sub-step fails and
whether or not the two stages differ, the key is still bound to the record in
the source store or is bound to it in the destination store; and when the read
fails, or the create in the destination fails, the call returns that error and
leaves the controller as it was. -/
theorem C12_transfer_never_loses (c : ControllerPicture) (env : TransferFaults)
    (picture : Picture) (fromState toState : String) (dFrom : Driver) (old : Picture)
    (hFrom : ControllerPicture.driverDynamodbMap fromState = Except.ok dFrom)
    (hold : (c.store dFrom).get picture.Origin picture.Name = some old) :
    ((((c.TransferPicture env picture fromState toState).2).store dFrom).get
          picture.Origin picture.Name = some old ∨
        ∃ dTo, ControllerPicture.driverDynamodbMap toState = Except.ok dTo ∧
          (((c.TransferPicture env picture fromState toState).2).store dTo).get
            picture.Origin picture.Name = some old) ∧
      (∀ err,
        (c.store dFrom).ReadPicture env.read picture.Origin picture.Name = Except.error err →
        c.TransferPicture env picture fromState toState = (Except.error err, c)) ∧
      (∀ dTo err, ControllerPicture.driverDynamodbMap toState = Except.ok dTo →
        (c.store dFrom).ReadPicture env.read picture.Origin picture.Name = Except.ok old →
        (c.store dTo).CreatePicture env.create old = Except.error err →
        c.TransferPicture env picture fromState toState = (Except.error err, c)) := by
  refine ⟨?_, ?_, ?_⟩
  · cases hread : (c.store dFrom).ReadPicture env.read picture.Origin picture.Name with
    | error err =>
      left
      unfold ControllerPicture.TransferPicture
      simp only [hFrom, hread]
      exact hold
    | ok old' =>
      have hold' := ControllerPicture.ReadPicture_ok _ _ _ _ _ hread
      rw [hold] at hold'
      cases hold'
      cases hTo : ControllerPicture.driverDynamodbMap toState with
      | error err =>
        left
        unfold ControllerPicture.TransferPicture
        simp only [hFrom, hread, hTo]
        exact hold
      | ok dTo =>
        cases hcreate : (c.store dTo).CreatePicture env.create old with
        | error err =>
          left
          unfold ControllerPicture.TransferPicture
          simp only [hFrom, hread, hTo, hcreate]
          exact hold
        | ok created =>
          obtain ⟨hfree, rfl⟩ := ControllerPicture.CreatePicture_ok _ _ _ _ hcreate
          have hne := ControllerPicture.driver_ne_of_create c picture dFrom dTo old hold hfree
          rw [ControllerPicture.TransferPicture_after_create c env picture fromState toState
            dFrom dTo old _ hFrom hTo hread hcreate]
          cases hdelete : ((c.setStore dTo (old :: c.store dTo)).store dFrom).DeletePicture
              env.delete picture.Origin picture.Name with
          | error err =>
            left
            simp only []
            rw [ControllerPicture.store_setStore_other _ dTo dFrom _ hne]
            exact hold
          | ok deleted =>
            right
            refine ⟨dTo, rfl, ?_⟩
            simp only []
            rw [ControllerPicture.store_setStore_other _ dFrom dTo _ (Ne.symm hne),
              ControllerPicture.store_setStore_same]
            exact PictureStore.get_cons_self _ _ _ _ (PictureStore.hasKey_of_get _ _ _ _ hold)
  · intro err hread
    unfold ControllerPicture.TransferPicture
    simp only [hFrom, hread]
  · intro dTo err hTo hread hcreate
    unfold ControllerPicture.TransferPicture
    simp only [hFrom, hread, hTo, hcreate]

/-- C12 at a concrete input: a transfer from the process store to itself is
rejected by the create and leaves the record where it is. -/
theorem C12_transfer_never_loses_witness :
    ((({ DynamodbProcess := [Sample.picture []] } : ControllerPicture).TransferPicture {}
        (Sample.picture []) "process" "process").2.store Driver.DynamodbProcess).get
          "flickr" "p1" = some (Sample.picture []) ∧
      ({ DynamodbProcess := [Sample.picture []] } : ControllerPicture).TransferPicture {}
        (Sample.picture []) "process" "process" =
        (Except.error Error.alreadyExists, { DynamodbProcess := [Sample.picture []] }) :=
  have h :=
    C12_transfer_never_loses { DynamodbProcess := [Sample.picture []] } {} (Sample.picture [])
      "process" "process" Driver.DynamodbProcess (Sample.picture []) rfl rfl
  ⟨(h.1.elim id (fun ⟨_, hd, hg⟩ => by cases hd; exact hg)),
    h.2.2 Driver.DynamodbProcess Error.alreadyExists rfl rfl rfl⟩

/-! ## Duplicate -/

namespace ControllerPicture

/-- The outcome of `CopyPicture` after a successful read, in terms of the
outcomes of the blob copy and of the create. -/
theorem CopyPicture_after_read (c : ControllerPicture) (env : CopyFaults) (picture : Picture)
    (stamp : String) (now : Time) (old : Picture)
    (hread : c.DynamodbProcess.ReadPicture env.read picture.Origin picture.Name =
      Except.ok old) :
    c.CopyPicture env picture stamp now =
      match c.S3.ItemCopy env.copy c.BucketName
          (sprintfPath old.Origin (sprintfName old.OriginID stamp) old.Extension)
          (sprintfPath old.Origin (sprintfName old.OriginID stamp) old.Extension) with
      | (Except.error err, s3) => (Except.error err, { c with S3 := s3 })
      | (Except.ok _, s3) =>
        match c.DynamodbProcess.CreatePicture env.create
            { old with Name := sprintfName old.OriginID stamp, CreationDate := now } with
        | Except.error err => (Except.error err, { c with S3 := s3 })
        | Except.ok created =>
          (Except.ok (), { c with S3 := s3, DynamodbProcess := created }) := by
  unfold CopyPicture
  simp only [hread]

end ControllerPicture

/-- C13 (code defect). For the stored picture `flickr/p1` with origin identifier
`id1` and extension `jpg`, whose blob is under `flickr/p1.jpg`, `CopyPicture` at
the time stamp `2026-11-01T00:00:00Z` issues one blob copy, whose source path
and destination path are both `flickr/id1_2026-11-01T00:00:00Z.jpg`: the source
path is built from the new name, not from the original name `p1`, although the
two names differ. The copy finds no blob under that path and the call ends
with `notFound`. -/
theorem C13_copy_source_is_destination :
    ((Sample.controller [(("bucket", "flickr/p1.jpg"), [1, 2, 3])]).CopyPicture {} (Sample.picture [])
        "2026-11-01T00:00:00Z" 3).2.S3.calls =
        [S3Call.ItemCopy "bucket" "flickr/id1_2026-11-01T00:00:00Z.jpg"
          "flickr/id1_2026-11-01T00:00:00Z.jpg"] ∧
      sprintfName (Sample.picture []).OriginID "2026-11-01T00:00:00Z" ≠
        (Sample.picture []).Name ∧
      sprintfPath (Sample.picture []).Origin (Sample.picture []).Name
        (Sample.picture []).Extension = "flickr/p1.jpg" ∧
      ((Sample.controller [(("bucket", "flickr/p1.jpg"), [1, 2, 3])]).CopyPicture {} (Sample.picture [])
        "2026-11-01T00:00:00Z" 3).1 = Except.error Error.notFound := by
  exact ⟨by decide, by decide, by decide, rfl⟩

/-- C14. Duplicate produces a different name: a `CopyPicture` call either
returns an error and leaves the process store as it was, or returns no error
and adds exactly one record to the process store, the record read with its name
replaced by the derived name and its creation date by the current time; the
derived name differs from the name of the picture duplicated, and the origin is
the same. -/
theorem C14_duplicate_name_differs (c : ControllerPicture) (env : CopyFaults)
    (picture : Picture) (stamp : String) (now : Time) :
    ((∃ err, (c.CopyPicture env picture stamp now).1 = Except.error err) ∧
        (c.CopyPicture env picture stamp now).2.DynamodbProcess = c.DynamodbProcess) ∨
      ∃ old, c.DynamodbProcess.get picture.Origin picture.Name = some old ∧
        (c.CopyPicture env picture stamp now).1 = Except.ok () ∧
        (c.CopyPicture env picture stamp now).2.DynamodbProcess =
          { old with Name := sprintfName old.OriginID stamp, CreationDate := now } ::
            c.DynamodbProcess ∧
        sprintfName old.OriginID stamp ≠ picture.Name ∧
        old.Origin = picture.Origin := by
  cases hread : c.DynamodbProcess.ReadPicture env.read picture.Origin picture.Name with
  | error err =>
    left
    unfold ControllerPicture.CopyPicture
    simp only [hread]
    exact ⟨⟨err, rfl⟩, trivial⟩
  | ok old =>
    have hold := ControllerPicture.ReadPicture_ok _ _ _ _ _ hread
    rw [ControllerPicture.CopyPicture_after_read c env picture stamp now old hread]
    rcases hcopy : c.S3.ItemCopy env.copy c.BucketName
        (sprintfPath old.Origin (sprintfName old.OriginID stamp) old.Extension)
        (sprintfPath old.Origin (sprintfName old.OriginID stamp) old.Extension) with ⟨res, s3⟩
    cases res with
    | error err =>
      left
      exact ⟨⟨err, rfl⟩, rfl⟩
    | ok u =>
      cases hcreate : c.DynamodbProcess.CreatePicture env.create
          { old with Name := sprintfName old.OriginID stamp, CreationDate := now } with
      | error err =>
        left
        simp only [hcreate]
        exact ⟨⟨err, rfl⟩, trivial⟩
      | ok created =>
        right
        obtain ⟨hfree, rfl⟩ := ControllerPicture.CreatePicture_ok _ _ _ _ hcreate
        have hkey := PictureStore.hasKey_of_get _ _ _ _ hold
        unfold PictureStore.hasKey at hkey
        simp only [Bool.and_eq_true, decide_eq_true_eq] at hkey
        refine ⟨old, hold, ?_, ?_, ?_, hkey.1⟩
        · simp only [hcreate]
        · simp only [hcreate]
        · intro heq
          simp only [heq, hkey.1] at hfree
          rw [hold] at hfree
          cases hfree

/-- C14 at a concrete input: the picture `flickr/p1` with origin identifier `id1`
is duplicated at the time stamp `2026-11-01T00:00:00Z` (with a blob under the
path the copy reads); the record created has the name
`id1_2026-11-01T00:00:00Z`. -/
theorem C14_duplicate_name_differs_witness :
    ((Sample.controller [(("bucket", "flickr/id1_2026-11-01T00:00:00Z.jpg"), [1])]).CopyPicture {} (Sample.picture [])
        "2026-11-01T00:00:00Z" 3).1 = Except.ok () ∧
      (((Sample.controller [(("bucket", "flickr/id1_2026-11-01T00:00:00Z.jpg"), [1])]).CopyPicture {} (Sample.picture [])
        "2026-11-01T00:00:00Z" 3).2.DynamodbProcess.map (fun p => (p.Origin, p.Name))) =
        [("flickr", "id1_2026-11-01T00:00:00Z"), ("flickr", "p1")] ∧
      "id1_2026-11-01T00:00:00Z" ≠ "p1" := by
  have h :=
    C14_duplicate_name_differs
      (Sample.controller [(("bucket", "flickr/id1_2026-11-01T00:00:00Z.jpg"), [1])])
      {} (Sample.picture []) "2026-11-01T00:00:00Z" 3
  rcases h with ⟨⟨err, herr⟩, -⟩ | ⟨old, hold, hok, hstore, hne, -⟩
  · have hok : ((Sample.controller
        [(("bucket", "flickr/id1_2026-11-01T00:00:00Z.jpg"), [1])]).CopyPicture {}
        (Sample.picture []) "2026-11-01T00:00:00Z" 3).1 = Except.ok () := rfl
    rw [hok] at herr
    cases herr
  · have hold' : old = Sample.picture [] := by
      have : some (Sample.picture []) = some old := hold
      injection this with this
      exact this.symm
    subst hold'
    refine ⟨hok, ?_, hne⟩
    rw [hstore]
    decide

/-! ## Crop of the raster: paths -/

/-- C15 (code defect). For the picture `flickr/p1` with extension `jpg`,
`UpdatePictureSize` reads the current raster from the path `flickr/p1` (the
path `cropFile` builds with `filepath.Join`) and writes the new raster to the
path `flickr/p1.jpg`: the two paths differ, and the blob that was read is still
the old raster afterwards. -/
theorem C15_crop_reads_and_writes_different_paths :
    ((Sample.controller [(("bucket", "flickr/p1"), [1, 2, 3])]).UpdatePictureSize
        Sample.codec {} ⟨0, 0, 5, 5⟩ (Sample.picture []) 9 5 8).2.S3.calls =
        [S3Call.ItemRead "bucket" "flickr/p1", S3Call.ItemCreate [9] "bucket" "flickr/p1.jpg"] ∧
      ((Sample.controller [(("bucket", "flickr/p1"), [1, 2, 3])]).UpdatePictureSize
        Sample.codec {} ⟨0, 0, 5, 5⟩ (Sample.picture []) 9 5 8).2.S3.get
          "bucket" "flickr/p1" = some [1, 2, 3] ∧
      filepath.Join (Sample.picture []).Origin (Sample.picture []).Name ≠
        sprintfPath (Sample.picture []).Origin (Sample.picture []).Name
          (Sample.picture []).Extension := by
  exact ⟨by decide, by decide, by decide⟩

/-! ## Crop: what is persisted -/

namespace ControllerPicture

end ControllerPicture

/-- C16. Identity preservation: the picture `updatePictureTagBoxes` returns has
the origin and the name of its input; the picture `cropPicture` returns, which
`UpdatePictureSize` writes, has the origin and the name of the key it was read
under; and when the read and the create of a `TransferPicture` call succeed, the
record added to the destination store is the record read from the source store,
with its origin and name, which are the origin and name asked for. -/
theorem C16_identity_preservation :
    (∀ (box : Box) (picture : Picture) (imageSizeID : UUID) (now : Time) (newID : UUID),
      ∃ out, updatePictureTagBoxes box picture imageSizeID now newID = Except.ok out ∧
        out.Origin = picture.Origin ∧ out.Name = picture.Name) ∧
      (∀ (c : ControllerPicture) (fails : Bool) (box : Box) (picture : Picture)
        (imageSizeID : UUID) (now : Time) (newID : UUID) (newPicture : Picture),
        c.cropPicture fails box picture imageSizeID now newID = Except.ok newPicture →
        newPicture.Origin = picture.Origin ∧ newPicture.Name = picture.Name) ∧
      (∀ (c : ControllerPicture) (env : TransferFaults) (picture : Picture)
        (fromState toState : String) (dFrom dTo : Driver) (old : Picture)
        (created : PictureStore),
        ControllerPicture.driverDynamodbMap fromState = Except.ok dFrom →
        ControllerPicture.driverDynamodbMap toState = Except.ok dTo →
        (c.store dFrom).ReadPicture env.read picture.Origin picture.Name = Except.ok old →
        (c.store dTo).CreatePicture env.create old = Except.ok created →
        created = old :: c.store dTo ∧
        ((c.TransferPicture env picture fromState toState).2.store dTo) = old :: c.store dTo ∧
        old.Origin = picture.Origin ∧ old.Name = picture.Name) := by
  refine ⟨?_, ?_, ?_⟩
  · intro box picture imageSizeID now newID
    exact ⟨_, updatePictureTagBoxes_eq box picture imageSizeID now newID, rfl, rfl⟩
  · intro c fails box picture imageSizeID now newID newPicture h
    unfold ControllerPicture.cropPicture at h
    cases hread : c.DynamodbProcess.ReadPicture fails picture.Origin picture.Name with
    | error err => simp [hread] at h
    | ok old =>
      have hold := ControllerPicture.ReadPicture_ok _ _ _ _ _ hread
      have hkey := PictureStore.hasKey_of_get _ _ _ _ hold
      unfold PictureStore.hasKey at hkey
      simp only [Bool.and_eq_true, decide_eq_true_eq] at hkey
      simp only [hread, updatePictureTagBoxes_eq] at h
      injection h with h
      rw [← h]
      exact hkey
  · intro c env picture fromState toState dFrom dTo old created hFrom hTo hread hcreate
    have hold := ControllerPicture.ReadPicture_ok _ _ _ _ _ hread
    obtain ⟨hfree, rfl⟩ := ControllerPicture.CreatePicture_ok _ _ _ _ hcreate
    have hne := ControllerPicture.driver_ne_of_create c picture dFrom dTo old hold hfree
    have hkey := PictureStore.hasKey_of_get _ _ _ _ hold
    unfold PictureStore.hasKey at hkey
    simp only [Bool.and_eq_true, decide_eq_true_eq] at hkey
    refine ⟨rfl, ?_, hkey.1, hkey.2⟩
    rw [ControllerPicture.TransferPicture_after_create c env picture fromState toState dFrom dTo
      old _ hFrom hTo hread hcreate]
    cases hdelete : ((c.setStore dTo (old :: c.store dTo)).store dFrom).DeletePicture
        env.delete picture.Origin picture.Name with
    | error err =>
      simp only []
      rw [ControllerPicture.store_setStore_same]
    | ok deleted =>
      simp only []
      rw [ControllerPicture.store_setStore_other _ dFrom dTo _ (Ne.symm hne),
        ControllerPicture.store_setStore_same]

/-- C16 at a concrete input: a crop of, and a transfer of, the picture
`flickr/p1`. -/
theorem C16_identity_preservation_witness :
    (∃ out, updatePictureTagBoxes ⟨50, 0, 200, 200⟩ (Sample.picture []) 9 5 8 = Except.ok out ∧
        out.Origin = "flickr" ∧ out.Name = "p1") ∧
      ((Sample.controller []).TransferPicture {} (Sample.picture []) "process"
        "validation").2.store Driver.DynamodbValidation = [Sample.picture []] :=
  ⟨C16_identity_preservation.1 ⟨50, 0, 200, 200⟩ (Sample.picture []) 9 5 8,
    (C16_identity_preservation.2.2 (Sample.controller []) {} (Sample.picture []) "process"
      "validation" Driver.DynamodbProcess Driver.DynamodbValidation (Sample.picture [])
      [Sample.picture []] rfl rfl rfl rfl).2.1⟩

namespace DriverS3

/-- After a blob has been removed there is none under its path. -/
theorem get_remove (s : DriverS3) (calls : List S3Call) (bucket path : String) :
    get { objects := s.remove bucket path, calls := calls } bucket path = none := by
  unfold get remove
  simp only [Option.map_eq_none']
  rw [List.find?_eq_none]
  intro o ho
  have := (List.mem_filter.1 ho).2
  simpa using this

end DriverS3

/-- C17 (as stated, refuted). For the picture `flickr/p1` held by the validation
store, `CreatePictureBlocked` returns no error and adds the record to the
blocked store, and the validation store still holds the record afterwards: the
third step deletes from the process store, not from the store of the stage the
picture is in. -/
theorem C17_blocked_from_validation_stays :
    (Sample.validated.CreatePictureBlocked {} (Sample.picture []) 3).1 = Except.ok () ∧
      (Sample.validated.CreatePictureBlocked {} (Sample.picture []) 3).2.DynamodbBlocked =
        [{ Sample.picture [] with CreationDate := 3 }] ∧
      (Sample.validated.CreatePictureBlocked {} (Sample.picture []) 3).2.DynamodbValidation.get
          "flickr" "p1" = some (Sample.picture []) :=
  ⟨rfl, by decide, by decide⟩

/-- C17 (amended). Block ordering: `CreatePictureBlocked` deletes the blob, then creates
the record (with the current time as creation date) in the blocked store, then
deletes the key from the process store, and stops at the first failure. If the
blob delete fails, the blocked store and the process store are unchanged; if the
create in the blocked store fails, both are unchanged as well, so the record is
still in the process store; whenever the call has changed the blocked store, it
has added the record to it, the blob delete was issued and there is no blob
under the path any more; when the call returns no error the key is absent from
the process store. The validation and production stores are never changed. -/
theorem C17_block_ordering (c : ControllerPicture) (env : BlockFaults) (picture : Picture)
    (now : Time) :
    (env.blobDelete = true →
        (c.CreatePictureBlocked env picture now).1 = Except.error Error.unavailable ∧
        (c.CreatePictureBlocked env picture now).2.DynamodbBlocked = c.DynamodbBlocked ∧
        (c.CreatePictureBlocked env picture now).2.DynamodbProcess = c.DynamodbProcess) ∧
      (∀ err, env.blobDelete = false →
        c.DynamodbBlocked.CreatePicture env.create { picture with CreationDate := now } =
          Except.error err →
        (c.CreatePictureBlocked env picture now).1 = Except.error err ∧
        (c.CreatePictureBlocked env picture now).2.DynamodbBlocked = c.DynamodbBlocked ∧
        (c.CreatePictureBlocked env picture now).2.DynamodbProcess = c.DynamodbProcess) ∧
      ((c.CreatePictureBlocked env picture now).2.DynamodbBlocked ≠ c.DynamodbBlocked →
        (c.CreatePictureBlocked env picture now).2.DynamodbBlocked =
          { picture with CreationDate := now } :: c.DynamodbBlocked ∧
        S3Call.ItemDelete c.BucketName
          (sprintfPath picture.Origin picture.Name picture.Extension) ∈
          (c.CreatePictureBlocked env picture now).2.S3.calls ∧
        (c.CreatePictureBlocked env picture now).2.S3.get c.BucketName
          (sprintfPath picture.Origin picture.Name picture.Extension) = none) ∧
      ((c.CreatePictureBlocked env picture now).1 = Except.ok () →
        (c.CreatePictureBlocked env picture now).2.DynamodbBlocked =
          { picture with CreationDate := now } :: c.DynamodbBlocked ∧
        (c.CreatePictureBlocked env picture now).2.DynamodbProcess.get
          picture.Origin picture.Name = none) ∧
      (c.CreatePictureBlocked env picture now).2.DynamodbValidation = c.DynamodbValidation ∧
      (c.CreatePictureBlocked env picture now).2.DynamodbProduction = c.DynamodbProduction := by
  unfold ControllerPicture.CreatePictureBlocked DriverS3.ItemDelete
  cases hblob : env.blobDelete with
  | true => simp
  | false =>
    simp only [Bool.false_eq_true, if_false, false_implies, true_and, forall_const]
    cases hcreate : c.DynamodbBlocked.CreatePicture env.create
        { picture with CreationDate := now } with
    | error err => simp
    | ok created =>
      obtain ⟨-, rfl⟩ := ControllerPicture.CreatePicture_ok _ _ _ _ hcreate
      unfold PictureStore.DeletePicture
      cases hdelete : env.delete with
      | true =>
        simp only [if_true, reduceCtorEq, false_implies, implies_true, true_and, and_true]
        intro _
        exact ⟨by simp, DriverS3.get_remove c.S3 _ _ _⟩
      | false =>
        simp only [Bool.false_eq_true, if_false, reduceCtorEq, false_implies, implies_true,
          true_and, and_true, forall_const]
        exact ⟨fun _ => ⟨by simp, DriverS3.get_remove c.S3 _ _ _⟩,
          PictureStore.get_filter_not_hasKey _ _ _⟩

/-- C17 (amended) at a concrete input: the picture `flickr/p1`, held by the process store
and with its blob under `flickr/p1.jpg`, is blocked at time `3`. -/
theorem C17_block_ordering_witness :
    ((Sample.controller [(("bucket", "flickr/p1.jpg"), [1, 2, 3])]).CreatePictureBlocked {}
        (Sample.picture []) 3).1 = Except.ok () ∧
      ((Sample.controller [(("bucket", "flickr/p1.jpg"), [1, 2, 3])]).CreatePictureBlocked {}
        (Sample.picture []) 3).2.DynamodbBlocked =
        [{ Sample.picture [] with CreationDate := 3 }] ∧
      ((Sample.controller [(("bucket", "flickr/p1.jpg"), [1, 2, 3])]).CreatePictureBlocked {}
        (Sample.picture []) 3).2.DynamodbProcess.get "flickr" "p1" = none ∧
      ((Sample.controller [(("bucket", "flickr/p1.jpg"), [1, 2, 3])]).CreatePictureBlocked {}
        (Sample.picture []) 3).2.S3.get "bucket" "flickr/p1.jpg" = none :=
  have h :=
    C17_block_ordering (Sample.controller [(("bucket", "flickr/p1.jpg"), [1, 2, 3])]) {}
      (Sample.picture []) 3
  ⟨rfl, (h.2.2.2.1 rfl).1, (h.2.2.2.1 rfl).2, (h.2.2.1 (by decide)).2.2⟩

/-! ## Crop of the raster: `updateFileDimension` -/

namespace image

theorem ZR_Empty : ZR.Empty = true := by decide

/-- An intersection that is empty is the zero rectangle. -/
theorem Rectangle.Intersect_eq_ZR_of_Empty (r s : Rectangle) (h : (r.Intersect s).Empty = true) :
    r.Intersect s = ZR := by
  unfold Rectangle.Intersect at h ⊢
  simp only at h ⊢
  split_ifs at h ⊢ <;> first | rfl | simp_all

theorem Image.SubImage_Bounds (p : Image) (r : Rectangle) :
    (p.SubImage r).Bounds = r.Intersect p.Bounds := by
  unfold Image.SubImage
  simp only
  split_ifs with h
  · exact (Rectangle.Intersect_eq_ZR_of_Empty r p.Bounds h).symm
  · rfl

theorem Image.Set_Bounds (p : Image) (x y : Int) (c : Color) : (p.Set x y c).Bounds = p.Bounds := by
  unfold Image.Set
  split_ifs <;> rfl

end image

/-- The row loop of `updateFileDimension` keeps the bounds of the target. -/
theorem copyRow_Bounds (img : image.Image) (y : Int) (xs : List Int) (dst : image.Image) :
    (xs.foldl (fun rgbaImg x => rgbaImg.Set x y (img.At x y)) dst).Bounds = dst.Bounds := by
  induction xs generalizing dst with
  | nil => rfl
  | cons x rest ih => rw [List.foldl_cons, ih, image.Image.Set_Bounds]

/-- The two loops of `updateFileDimension` keep the bounds of the target. -/
theorem copyRows_Bounds (img : image.Image) (xs ys : List Int) (dst : image.Image) :
    (ys.foldl
        (fun rgbaImg y => xs.foldl (fun rgbaImg x => rgbaImg.Set x y (img.At x y)) rgbaImg)
        dst).Bounds = dst.Bounds := by
  induction ys generalizing dst with
  | nil => rfl
  | cons y rest ih => rw [List.foldl_cons, ih, copyRow_Bounds]

/-- Whenever `updateFileDimension` returns an image, its bounds are the
intersection of the crop rectangle with the bounds of the input. -/
theorem updateFileDimension_Bounds (img out : image.Image) (cropRect : image.Rectangle)
    (h : updateFileDimension img cropRect = Except.ok out) :
    out.Bounds = cropRect.Intersect img.Bounds := by
  unfold updateFileDimension at h
  by_cases h1 : img.hasSubImage = true
  · rw [if_pos h1] at h
    injection h with h
    rw [← h, image.Image.SubImage_Bounds]
  · rw [if_neg h1] at h
    simp only at h
    by_cases h2 : (!(cropRect.Intersect img.Bounds).Empty) = true
    · rw [if_pos h2] at h
      injection h with h
      rw [← h, copyRows_Bounds]
      rfl
    · rw [if_neg h2] at h
      cases h

/-- For an image whose type has no `SubImage` method, an empty intersection is
reported as an error. -/
theorem updateFileDimension_plain_empty (img : image.Image) (cropRect : image.Rectangle)
    (hplain : img.hasSubImage = false)
    (hempty : (cropRect.Intersect img.Bounds).Empty = true) :
    updateFileDimension img cropRect = Except.error Error.cannotCrop := by
  unfold updateFileDimension
  simp [hplain, hempty]

/-- C18 (code defect). For a decoded image with the bounds `(0,0)-(10,10)`, of a
type that has the method `SubImage`, and the crop rectangle `(20,20)-(30,30)`,
whose intersection with the bounds is empty, `updateFileDimension` returns no
error but an image, with empty bounds. -/
theorem C18_empty_region_returns_image :
    Sample.raster.Bounds = image.Rect 0 0 10 10 ∧
      ((image.Rect 20 20 30 30).Intersect Sample.raster.Bounds).Empty = true ∧
      ∃ out, updateFileDimension Sample.raster (image.Rect 20 20 30 30) = Except.ok out ∧
        out.Bounds = image.ZR ∧ out.Bounds.Empty = true :=
  ⟨rfl, by decide, _, rfl, by decide, by decide⟩

/-- C19. Stage identifiers: `driverDynamodbMap` returns a store exactly for the
identifiers `process`, `validation` and `production`, never the blocked store,
and the error of line 40 for every other string; and a `TransferPicture` call
whose source or destination identifier is not one of the three returns an error
and leaves every store as it was. -/
theorem C19_unknown_stage_rejected :
    (∀ state : String,
        (∃ d, ControllerPicture.driverDynamodbMap state = Except.ok d) ↔
          state ∈ ["process", "validation", "production"]) ∧
      (∀ state : String, state ∉ ["process", "validation", "production"] →
        ControllerPicture.driverDynamodbMap state =
          Except.error (Error.tableNotAvailable state)) ∧
      (∀ state : String,
        ControllerPicture.driverDynamodbMap state ≠ Except.ok Driver.DynamodbBlocked) ∧
      (∀ (c : ControllerPicture) (env : TransferFaults) (picture : Picture)
        (fromState toState : String),
        (fromState ∉ ["process", "validation", "production"] ∨
          toState ∉ ["process", "validation", "production"]) →
        ∃ err, c.TransferPicture env picture fromState toState = (Except.error err, c)) := by
  refine ⟨?_, ControllerPicture.driverDynamodbMap_error, ?_, ?_⟩
  · intro state
    constructor
    · rintro ⟨d, hd⟩
      exact (ControllerPicture.driverDynamodbMap_ok state d hd).1
    · intro h
      simp only [List.mem_cons, List.mem_singleton, List.not_mem_nil, or_false] at h
      rcases h with rfl | rfl | rfl
      · exact ⟨Driver.DynamodbProcess, rfl⟩
      · exact ⟨Driver.DynamodbValidation, rfl⟩
      · exact ⟨Driver.DynamodbProduction, rfl⟩
  · intro state h
    exact (ControllerPicture.driverDynamodbMap_ok state _ h).2 rfl
  · intro c env picture fromState toState h
    cases hFrom : ControllerPicture.driverDynamodbMap fromState with
    | error err =>
      refine ⟨err, ?_⟩
      unfold ControllerPicture.TransferPicture
      simp only [hFrom]
    | ok dFrom =>
      cases hread : (c.store dFrom).ReadPicture env.read picture.Origin picture.Name with
      | error err =>
        refine ⟨err, ?_⟩
        unfold ControllerPicture.TransferPicture
        simp only [hFrom, hread]
      | ok old =>
        have hTo : toState ∉ ["process", "validation", "production"] := by
          rcases h with h | h
          · exact absurd (ControllerPicture.driverDynamodbMap_ok fromState dFrom hFrom).1 h
          · exact h
        refine ⟨Error.tableNotAvailable toState, ?_⟩
        unfold ControllerPicture.TransferPicture
        simp only [hFrom, hread, ControllerPicture.driverDynamodbMap_error toState hTo]

/-- C19 at concrete inputs: a transfer out of, and a transfer into, the stage
`blocked` is rejected and changes nothing. -/
theorem C19_unknown_stage_rejected_witness :
    (Sample.controller []).TransferPicture {} (Sample.picture []) "blocked" "process" =
        (Except.error (Error.tableNotAvailable "blocked"), Sample.controller []) ∧
      (Sample.controller []).TransferPicture {} (Sample.picture []) "process" "blocked" =
        (Except.error (Error.tableNotAvailable "blocked"), Sample.controller []) ∧
      ∃ err, (Sample.controller []).TransferPicture {} (Sample.picture []) "process" "blocked" =
        (Except.error err, Sample.controller []) :=
  ⟨rfl, rfl,
    C19_unknown_stage_rejected.2.2.2 (Sample.controller []) {} (Sample.picture []) "process"
      "blocked" (Or.inr (by decide))⟩

end ScraperBackend
